import Mathlib

/-!
Shallow embedding of `hypebot/plugins/league/esports_lib.py` (with helpers from
`hypebot/core/util_lib.py`), used to check the natural-language specification of
the esports aggregation engine against the code.

Modelling conventions:
* Protobuf messages (`esports_pb2`) become plain structures; unset scalar proto
  fields carry the proto3 defaults (`""` for strings, `0` for numbers).
* Python dicts that preserve insertion order become association lists.
* Shared-mutable `Match` protos (mutated in place by `UpdateMatches` and read
  through the engine's indices) become cells of an explicit heap keyed by match
  id; every structure that holds a reference to a match holds its id.
* `FetchJson` results become `Option` values (`none` = fetch failure / falsy
  response); Python exceptions that the code can raise become a `PyErr` value
  returned next to the state reached when the exception escapes.
* `arrow` timestamps become integers (seconds); `random.choice(['Fill','Feed'])`
  becomes a draw from an explicit stream `Nat → Bool`.
-/

namespace Hypebot

/-- Python exception kinds that `esports_lib` can actually raise. -/
inductive PyErr
  | typeError
  | keyError
  | indexError
deriving DecidableEq, Repr

/-! ### Association lists (Python dicts, insertion ordered) -/

/-- Lookup in an insertion-ordered dict. -/
def alistGet {α : Type} : List (String × α) → String → Option α
  | [], _ => none
  | (k, v) :: rest, key => if k = key then some v else alistGet rest key

/-- In-place update of the (first) entry at `key`; identity when absent.
Models `d[key].field = ...` on an existing dict entry. -/
def alistModify {α : Type} : List (String × α) → String → (α → α) → List (String × α)
  | [], _, _ => []
  | (k, v) :: rest, key, f =>
    if k = key then (k, f v) :: rest else (k, v) :: alistModify rest key f

/-- Every value of the dict satisfies `P`. -/
def alistAll {α : Type} (P : α → Prop) (l : List (String × α)) : Prop :=
  ∀ p ∈ l, P p.2

/-! ### Stable insertion sort: the model of Python `sorted`/`list.sort`.

`c a b = true` means "`a` may be placed before `b`".  For Python's
`sorted(l, key=k)` take `c a b := k a ≤ k b`; for `reverse=True` take
`c a b := k b ≤ k a`.  On ties (`c a b` and `c b a` both true) the insertion
sort below keeps the original order, exactly like Python's stable sort. -/

def insertBy {α : Type} (c : α → α → Bool) (x : α) : List α → List α
  | [] => [x]
  | y :: ys => if c x y then x :: y :: ys else y :: insertBy c x ys

def sortBy {α : Type} (c : α → α → Bool) (l : List α) : List α :=
  l.foldr (insertBy c) []

/-! ### Entity model (`esports_pb2` protos wrapped by `esports_lib`)

Unset proto3 scalar fields keep their defaults: `""` for strings and `0` for
numbers.  `Match.winner = ""` means "undecided"; `Match.timestamp = 0` is the
value a match keeps when no schedule item ever assigns it a time. -/

structure Player where
  summoner_name : String
  team_id : String
  position : String
  is_substitute : Bool
deriving DecidableEq, Repr

structure Team where
  team_id : String
  name : String
  league_id : String
  players : List Player
deriving DecidableEq, Repr

structure GameInstance where
  game_id : String
  realm : String
  hash : String
deriving DecidableEq, Repr

structure MatchData where
  match_id : String
  bracket_id : String
  blue : String
  red : String
  timestamp : Int
  winner : String
  games : List GameInstance
deriving DecidableEq, Repr

structure TeamStanding where
  rank : Nat
  team : Team
  wins : Nat
  losses : Nat
  ties : Nat
  points : Nat
deriving DecidableEq, Repr

/-- A bracket; its `schedule` holds references (match ids) into the match heap,
since in the source the `Match` protos inside `bracket.schedule` are the same
objects stored in the provider's `_matches` dict and the engine's indices. -/
structure Bracket where
  bracket_id : String
  name : String
  league_id : String
  is_playoffs : Bool
  standings : List TeamStanding
  schedule : List String
deriving DecidableEq, Repr

/-! ### The match heap: shared-mutable `Match` protos as cells keyed by id -/

/-- Heap of match cells.  Keys are match ids; `heapSet` mutates an existing
cell in place (identity when the id is absent, which the code never does). -/
abbrev Heap : Type := List (String × MatchData)

def heapGet : Heap → String → Option MatchData
  | [], _ => none
  | (k, v) :: rest, key => if k = key then some v else heapGet rest key

def heapSet : Heap → String → MatchData → Heap
  | [], _, _ => []
  | (k, v) :: rest, key, m =>
    if k = key then (k, m) :: rest else (k, v) :: heapSet rest key m

/-- Insertion of a fresh cell (`self._matches[m.match_id] = m` during a load). -/
def heapAdd (h : Heap) (key : String) (m : MatchData) : Heap :=
  h ++ [(key, m)]

def heapIds (h : Heap) : List String := h.map Prod.fst

/-! ### GrumbleProvider: upstream shapes

The goog-lol-tournaments REST responses, as `_ParseSchedule`/`_UpdateSchedule`
consume them.  `Option` fields model `util_lib.Access` paths that may be
missing (`Access` returns the default on a missing key). -/

/-- `team['outcome']`: falsy ⇒ skip, `'VICTORY'` ⇒ win, `'TIE'` ⇒ tie,
anything else ⇒ loss. -/
inductive Outcome
  | empty
  | victory
  | tie
  | other
deriving DecidableEq, Repr

structure GTeamRef where
  id : Option String
  displayName : String
  outcome : Outcome
deriving DecidableEq, Repr

structure GGame where
  game_id : Option String
  tournamentCode : Option String
deriving DecidableEq, Repr

structure GMatch where
  team1 : GTeamRef
  team2 : GTeamRef
  timestampSec : Int
  games : List GGame
deriving DecidableEq, Repr

/-- One entry of the response's `schedule` list; `gmatches` is the week's
`matches` list (`matches` is a Lean keyword). -/
structure GWeek where
  gmatches : List GMatch
deriving DecidableEq, Repr

/-- A truthy bracket response; a failed `FetchJson` is `none` at the use
sites (subscripting it raises `TypeError`). -/
structure GrumbleResp where
  schedule : List GWeek
deriving DecidableEq, Repr

/-- `m.games.add(game_id=str(Access(game,'ref.gameId')), realm=...,
hash=Access(game,'ref.tournamentCode'))` — `str(None)` is the literal string
`"None"`, and a `None` kwarg leaves the proto field at its default. -/
def gGameInstance (realm : String) (g : GGame) : GameInstance :=
  { game_id := match g.game_id with
      | some s => s
      | none => "None",
    realm := realm,
    hash := g.tournamentCode.getD "" }

/-- One team's contribution inside the week walk of
`GrumbleProvider._ParseSchedule` (source lines 443-466): lazily create the
`Team` and its standings entry on first sighting, then fold the outcome into
the match winner and the standings tallies (win ⇒ +3 points, tie ⇒ +1,
loss ⇒ +0).  `TeamStanding(team=...)` copies the proto, so the standing's
team snapshot has no players yet. -/
def gPerTeam (league_id : String) (t : GTeamRef) (winner : String)
    (teams : List (String × Team)) (standings : List (String × TeamStanding)) :
    String × List (String × Team) × List (String × TeamStanding) :=
  match t.id with
  | none => (winner, teams, standings)
  | some tid =>
    let tm : Team :=
      match alistGet teams tid with
      | some tm => tm
      | none => { team_id := tid, name := t.displayName, league_id := league_id, players := [] }
    let teams := if (alistGet teams tid).isSome then teams else teams ++ [(tid, tm)]
    let standings :=
      if (alistGet standings tid).isSome then standings
      else standings ++
        [(tid, { rank := 0, team := tm, wins := 0, losses := 0, ties := 0, points := 0 })]
    match t.outcome with
    | .empty => (winner, teams, standings)
    | .victory =>
      (tid, teams, alistModify standings tid
        (fun st => { st with wins := st.wins + 1, points := st.points + 3 }))
    | .tie =>
      ("TIE", teams, alistModify standings tid
        (fun st => { st with ties := st.ties + 1, points := st.points + 1 }))
    | .other =>
      (winner, teams, alistModify standings tid
        (fun st => { st with losses := st.losses + 1 }))

/-- The mutable state `_ParseSchedule` threads through the week walk:
`match_count`, the shared match heap (`self._matches`), the bracket's schedule
(ids of its matches), `self._teams` and the local standings dict. -/
structure GParseSt where
  match_count : Nat
  heap : Heap
  schedule : List String
  teams : List (String × Team)
  standings : List (String × TeamStanding)
deriving Repr

/-- One match of the week walk (source lines 428-466): build the `Match`
proto (timestamp from `timestampSec`, `'TBD'` for a missing team ref), store
it in the heap and the bracket schedule, then process both teams.  The winner
mutations of the team loop are folded into the stored cell. -/
def gPerMatch (league_id bracket_id realm : String) (mt : GMatch) (st : GParseSt) : GParseSt :=
  let count := st.match_count + 1
  let mid := league_id ++ "-" ++ bracket_id ++ "-" ++ toString count
  let m0 : MatchData :=
    { match_id := mid, bracket_id := bracket_id,
      blue := mt.team1.id.getD "TBD", red := mt.team2.id.getD "TBD",
      timestamp := mt.timestampSec, winner := "",
      games := mt.games.map (gGameInstance realm) }
  let r1 := gPerTeam league_id mt.team1 m0.winner st.teams st.standings
  let r2 := gPerTeam league_id mt.team2 r1.1 r1.2.1 r1.2.2
  { match_count := count,
    heap := heapAdd st.heap mid { m0 with winner := r2.1 },
    schedule := st.schedule ++ [mid],
    teams := r2.2.1,
    standings := r2.2.2 }

def gParseMatches (league_id bracket_id realm : String) :
    List GMatch → GParseSt → GParseSt
  | [], st => st
  | mt :: rest, st =>
    gParseMatches league_id bracket_id realm rest (gPerMatch league_id bracket_id realm mt st)

def gParseWeeks (league_id bracket_id realm : String) :
    List GWeek → GParseSt → GParseSt
  | [], st => st
  | w :: rest, st =>
    gParseWeeks league_id bracket_id realm rest
      (gParseMatches league_id bracket_id realm w.gmatches st)

/-- `sorted(standings.values(), key=lambda x: x.points, reverse=True)` —
Python's sort is stable, so equal-points entries keep insertion order. -/
def sortStandings (l : List TeamStanding) : List TeamStanding :=
  sortBy (fun a b => decide (b.points ≤ a.points)) l

/-- The rank loop of `_ParseSchedule` (source lines 469-475): 1-based rank,
reset to `i+1` exactly when the points differ from `cur_points`
(initially `-1`, hence the `Int` comparison; after each entry `cur_points`
equals that entry's points whether or not the branch ran). -/
def assignRanks : List TeamStanding → Nat → Nat → Int → List TeamStanding
  | [], _, _, _ => []
  | t :: ts, i, rank, cur =>
    let rank := if (t.points : Int) ≠ cur then i + 1 else rank
    { t with rank := rank } :: assignRanks ts (i + 1) rank (t.points : Int)

def rankStandings (l : List TeamStanding) : List TeamStanding :=
  assignRanks l 0 1 (-1)

/-- What `_ParseSchedule` produces/mutates. -/
structure GParseOut where
  heap : Heap
  teams : List (String × Team)
  schedule : List String
  standings : List TeamStanding
deriving Repr

/-- `GrumbleProvider._ParseSchedule` (source lines 422-476): walk the weekly
match lists building matches (into the shared heap), teams and a standings
map, then sort the standings by points descending (stably) and assign
tie-sharing ranks into the bracket. -/
def grumbleParseSchedule (league_id bracket_id realm : String) (weeks : List GWeek)
    (heap0 : Heap) (teams0 : List (String × Team)) : GParseOut :=
  let st := gParseWeeks league_id bracket_id realm weeks
    { match_count := 0, heap := heap0, schedule := [], teams := teams0, standings := [] }
  { heap := st.heap, teams := st.teams, schedule := st.schedule,
    standings := rankStandings (sortStandings (st.standings.map Prod.snd)) }

/-! ### Lemmas about the standings built by `_ParseSchedule` (claim C7) -/

/-- The per-entry bookkeeping invariant: 3 points per win, 1 per tie. -/
def pointsOk (s : TeamStanding) : Prop := s.points = 3 * s.wins + 1 * s.ties

/-- Concrete Grumble week for the spec's standings scenario: A beats B and C
ties D. -/
def c7Team (i n : String) (o : Outcome) : GTeamRef :=
  { id := some i, displayName := n, outcome := o }

def c7Weeks : List GWeek :=
  [{ gmatches :=
      [{ team1 := c7Team "A" "Alpha" Outcome.victory,
         team2 := c7Team "B" "Beta" Outcome.other,
         timestampSec := 100, games := [] },
       { team1 := c7Team "C" "Gamma" Outcome.tie,
         team2 := c7Team "D" "Delta" Outcome.tie,
         timestampSec := 200, games := [] }] }]

def c7Entry : TeamStanding :=
  { rank := 2,
    team := { team_id := "C", name := "Gamma", league_id := "grumble-D1", players := [] },
    wins := 0, losses := 0, ties := 1, points := 1 }

/-! ### Reload callbacks (claim C3)

`EsportsLib.RegisterCallback` appends to `self._callbacks`; at the end of
`LoadEsports` the engine runs `for fn in self._callbacks: fn()` with no
`try`/`except` around the call (source lines 701-704).  A callback's behaviour
is modelled as the `Except` value its invocation produces; `runCallbacks`
returns the 0-based indices of the callbacks that were invoked, in order, and
the exception (if any) that escaped the loop. -/

def registerCallback {α : Type} (callbacks : List α) (fn : α) : List α :=
  callbacks ++ [fn]

def runCallbacksGo : List (Except PyErr Unit) → Nat → List Nat × Option PyErr
  | [], _ => ([], none)
  | cb :: rest, i =>
    match cb with
    | .ok _ =>
      let r := runCallbacksGo rest (i + 1)
      (i :: r.1, r.2)
    | .error e => ([i], some e)

/-- The callback loop of `LoadEsports` (lines 702-703): invoke each callback
in registration order; an exception from one callback aborts the loop and
escapes `LoadEsports`. -/
def runCallbacks (callbacks : List (Except PyErr Unit)) : List Nat × Option PyErr :=
  runCallbacksGo callbacks 0

/-! ### Qualifier resolution in `GetSchedule`/`GetResults` (claim C6)

Both queries resolve `subcommand` the same way (source lines 726-731 and
771-779): start from `'All'`; if the subcommand is in the team index, take the
team's id; if it is in the league index, take the league's id.  The two
NameComplete indices (built in `name_complete_lib`, outside this module) are
abstracted as lookup functions: `some` means `subcommand in index` with the
given entry. -/

/-- A league as the engine's league index stores it (the provider object;
only its `league_id` matters for qualifier resolution). -/
structure LeagueInfo where
  league_id : String
  name : String
deriving DecidableEq, Repr

def resolveQualifier (teams : String → Option Team)
    (leagues : String → Option LeagueInfo) (subcommand : String) : String :=
  let q0 := "All"
  let q1 :=
    match teams subcommand with
    | some t => t.team_id
    | none => q0
  match leagues subcommand with
  | some l => l.league_id
  | none => q1

def c6Team : Team :=
  { team_id := "TSM", name := "Team SoloMid", league_id := "NA", players := [] }

def c6League : LeagueInfo := { league_id := "NA", name := "NA" }

def c6Teams : String → Option Team :=
  fun s => if s = "solo" then some c6Team else none

def c6Leagues : String → Option LeagueInfo :=
  fun s => if s = "solo" then some c6League else none

/-! ### The engine's time-ordered schedule and the unscheduled-match
sentinel (claim C5)

`LoadEsports` publishes `sorted(matches.values(), key=lambda x: x.timestamp)`
(source line 682); Python's sort is stable.  A Rito match is created without a
timestamp (lines 275-279), keeping the proto default `0`; only matches present
in the `scheduleItems` response later receive their scheduled time (lines
313-317).  `GetSchedule`/`_MatchIsInteresting` (lines 743-745, 919) treat
`arrow.Arrow.max` — timestamp 253402300799 — as the "not yet scheduled"
sentinel, but nothing ever assigns it. -/

/-- `sorted(matches.values(), key=lambda x: x.timestamp)`. -/
def engineSortSchedule (ms : List MatchData) : List MatchData :=
  sortBy (fun a b => decide (a.timestamp ≤ b.timestamp)) ms

/-- `arrow.Arrow.max.timestamp` (9999-12-31T23:59:59Z), the sentinel the read
path checks for. -/
def arrowMaxTimestamp : Int := 253402300799

/-- A match as `RitoProvider.LoadData` first builds it (lines 275-279): no
timestamp kwarg, so the proto default `0` (the epoch) — not the far-future
sentinel. -/
def ritoNewMatch (mid bid blue red : String) : MatchData :=
  { match_id := mid, bracket_id := bid, blue := blue, red := red,
    timestamp := 0, winner := "", games := [] }

/-- The `scheduleItems` join (lines 313-317): set the scheduled time of every
match that appears in the response; matches absent from it are untouched. -/
def ritoApplyScheduleItems : List (String × Int) → Heap → Heap
  | [], h => h
  | (mid, t) :: rest, h =>
    ritoApplyScheduleItems rest
      (if (heapGet h mid).isSome then
        match heapGet h mid with
        | some m => heapSet h mid { m with timestamp := t }
        | none => h
      else h)

def c5Heap : Heap :=
  ritoApplyScheduleItems [("m1", 1500000000)]
    [("m1", ritoNewMatch "m1" "b" "TSM" "C9"), ("m2", ritoNewMatch "m2" "b" "FOX" "FLY")]

/-! ### `GetTopPickBanChamps` (claim C9) -/

/-- The per-champ flattened counter (`Counter` with keys `picks`, `bans`,
`wins`; missing keys read as 0). -/
structure ChampStats where
  picks : Nat
  bans : Nat
  wins : Nat
deriving DecidableEq, Repr

/-- The 5%-of-games pick floor (source lines 887-891): keep champs with
`picks >= num_games / 20.0`; over exact arithmetic that is
`num_games ≤ 20 · picks`. -/
def pickBanFloorSurvivors (champs : List (String × ChampStats)) (num_games : Nat) :
    List (String × ChampStats) :=
  champs.filter (fun x => decide (num_games ≤ 20 * x.2.picks))

/-- `EsportsLib.GetTopPickBanChamps` (source lines 868-900), taking the
flattened per-champ data and the summed `num_games` (built in lines 873-885)
as inputs: filter by the pick floor, sort by picks descending (secondary
key), then stably sort by the caller-supplied key (primary, `reverse` per
`descending`), and return the first 5. -/
def getTopPickBanChamps (champs : List (String × ChampStats)) (num_games : Nat)
    (sort_key_fn : ChampStats → Int) (descending : Bool) :
    List (String × ChampStats) :=
  let filtered := pickBanFloorSurvivors champs num_games
  let sorted_champs := sortBy (fun a b => decide (b.2.picks ≤ a.2.picks)) filtered
  let final := sortBy (fun a b =>
      if descending then decide (sort_key_fn b.2 ≤ sort_key_fn a.2)
      else decide (sort_key_fn a.2 ≤ sort_key_fn b.2)) sorted_champs
  final.take 5

/-- Concrete input for the C9 pick-floor scenario: 100 games, a champ picked
4 times and one picked 5 times. -/
def c9Champs : List (String × ChampStats) :=
  [("Ahri", { picks := 4, bans := 10, wins := 2 }),
   ("Zed", { picks := 5, bans := 0, wins := 3 }),
   ("Jinx", { picks := 50, bans := 1, wins := 25 })]

/-! ### RitoProvider state and upstream shapes (claims C2, C10) -/

/-- `RitoProvider`'s mutable state: `_teams`, `_brackets`, `_rosters` (dicts)
and `_matches` (heap of shared match cells). -/
structure RitoState where
  teams : List (String × Team)
  brackets : List (String × Bracket)
  rosters : List (String × Team)
  mmatches : Heap
deriving DecidableEq, Repr

/-- One entry of a raw match's `input` list; `roster` is present iff the
team is decided (`'roster' in team`). -/
structure RawTeamInput where
  roster : Option String
deriving DecidableEq, Repr

structure RawRosterRef where
  roster : String
deriving DecidableEq, Repr

/-- `match['standings']`: result groups ordered by rank. -/
structure RawStandings where
  result : List (List RawRosterRef)
deriving DecidableEq, Repr

structure RawMatch where
  id : String
  input : List RawTeamInput
  standings : Option RawStandings
deriving DecidableEq, Repr

/-- `bracket['matches'].values()` in dict order. -/
structure RawBracket where
  bmatches : List RawMatch
deriving DecidableEq, Repr

/-- One `highlanderTournaments` record: `startDate` may be absent (such
records are skipped); timestamps are integer seconds. -/
structure RawTournament where
  startDate : Option Int
  endDate : Int
  brackets : List RawBracket
deriving DecidableEq, Repr

/-- A truthy `leagues` endpoint document; `hasLeagues` is whether the
`'leagues'` key is present. -/
structure RitoLeagueDoc where
  hasLeagues : Bool
  highlanderTournaments : List RawTournament
deriving DecidableEq, Repr

/-- `RitoProvider.LoadData`, lines 190-197: the provider CLEARS its teams,
matches and rosters (but not its brackets) before fetching the league
descriptor, and returns early — with those dicts already emptied — when the
fetch fails or the document lacks the `'leagues'` key.  The remainder of the
load (lines 199-317) is the continuation `rest`, which only runs on a
successful fetch. -/
def ritoLoadData (rest : RitoState → RitoState) (fetch : Option RitoLeagueDoc)
    (s : RitoState) : RitoState :=
  let s1 : RitoState := { s with teams := [], mmatches := [], rosters := [] }
  match fetch with
  | none => s1
  | some doc => if !doc.hasLeagues then s1 else rest s1

/-- `RitoProvider._FindActiveTournaments` (lines 350-366): every tournament
whose window contains `now`; when none qualifies, the single tournament with
the newest start date — which is `None` (so the caller's subscript raises
`TypeError`) when no record has a `startDate`.  `arrow.Arrow.min` is below
every real start date, so the newest-tracking starts empty. -/
def findActiveTournaments (now : Int) (ts : List RawTournament) :
    List (Option RawTournament) :=
  let st := ts.foldl
    (fun (acc : List RawTournament × Option (Int × RawTournament)) t =>
      match t.startDate with
      | none => acc
      | some sd =>
        let best :=
          match acc.2 with
          | none => some (sd, t)
          | some (bd, bt) => if bd < sd then some (sd, t) else some (bd, bt)
        let active := if sd ≤ now ∧ now ≤ t.endDate then acc.1 ++ [t] else acc.1
        (active, best))
    ([], none)
  match st.1 with
  | [] => [st.2.map Prod.snd]
  | l => l.map some

/-- `RitoProvider._ExtractMatchTeams` (lines 368-380): `none` unless the raw
match's `input` has exactly two entries; an unknown roster id raises
`KeyError`; a team without a roster is `'TBD'`.  (The docstring says
(red, blue) but callers use index 0 as blue.) -/
def extractMatchTeams (rosters : List (String × Team)) (m : RawMatch) :
    Except PyErr (Option (String × String)) :=
  match m.input with
  | [a, b] =>
    let find : RawTeamInput → Except PyErr String := fun ti =>
      match ti.roster with
      | some rid =>
        match alistGet rosters rid with
        | some t => Except.ok t.team_id
        | none => Except.error PyErr.keyError
      | none => Except.ok "TBD"
    match find a with
    | Except.error e => Except.error e
    | Except.ok x =>
      match find b with
      | Except.error e => Except.error e
      | Except.ok y => Except.ok (some (x, y))
  | _ => Except.ok none

/-- One iteration of `RitoProvider.UpdateMatches`' match loop (lines
330-347), mutating the heap cell in place: patch still-`'TBD'` teams from the
fresh descriptor, then, if the winner is unset and raw standings exist,
derive the winner from the top result group (>1 ⇒ `'TIE'`, =1 ⇒ that roster's
team) and append the match to `updated_matches` (the append runs even when
the top group is empty).  Raised exceptions (`KeyError` on an unknown roster,
`IndexError` on an empty `result`) escape with the mutations made so far
kept. -/
def ritoUpdMatch (rosters : List (String × Team)) (raw : RawMatch) (heap : Heap) :
    Heap × Option String × Option PyErr :=
  match heapGet heap raw.id with
  | none => (heap, none, none)
  | some old =>
    match
      (if old.blue = "TBD" ∨ old.red = "TBD" then
        match extractMatchTeams rosters raw with
        | Except.error e => Except.error e
        | Except.ok (some (b, r)) => Except.ok { old with blue := b, red := r }
        | Except.ok none => Except.ok old
      else Except.ok old) with
    | Except.error e => (heap, none, some e)
    | Except.ok old1 =>
      let heap1 := heapSet heap raw.id old1
      if old1.winner = "" then
        match raw.standings with
        | none => (heap1, none, none)
        | some st =>
          match st.result with
          | [] => (heap1, none, some PyErr.indexError)
          | top :: _ =>
            if 1 < top.length then
              (heapSet heap1 raw.id { old1 with winner := "TIE" }, some raw.id, none)
            else
              match top with
              | [r0] =>
                match alistGet rosters r0.roster with
                | some t =>
                  (heapSet heap1 raw.id { old1 with winner := t.team_id },
                   some raw.id, none)
                | none => (heap1, none, some PyErr.keyError)
              | _ => (heap1, some raw.id, none)
      else (heap1, none, none)

def ritoUpdMatchList (rosters : List (String × Team)) :
    List RawMatch → Heap → List String → Heap × List String × Option PyErr
  | [], heap, acc => (heap, acc, none)
  | raw :: rest, heap, acc =>
    let r := ritoUpdMatch rosters raw heap
    match r.2.2 with
    | some e => (r.1, acc, some e)
    | none =>
      match r.2.1 with
      | some mid => ritoUpdMatchList rosters rest r.1 (acc ++ [mid])
      | none => ritoUpdMatchList rosters rest r.1 acc

def ritoUpdBracketList (rosters : List (String × Team)) :
    List RawBracket → Heap → List String → Heap × List String × Option PyErr
  | [], heap, acc => (heap, acc, none)
  | b :: rest, heap, acc =>
    let r := ritoUpdMatchList rosters b.bmatches heap acc
    match r.2.2 with
    | some e => (r.1, r.2.1, some e)
    | none => ritoUpdBracketList rosters rest r.1 r.2.1

def ritoUpdTournamentList (rosters : List (String × Team)) :
    List (Option RawTournament) → Heap → List String → Heap × List String × Option PyErr
  | [], heap, acc => (heap, acc, none)
  | none :: _, heap, acc => (heap, acc, some PyErr.typeError)
  | some t :: rest, heap, acc =>
    let r := ritoUpdBracketList rosters t.brackets heap acc
    match r.2.2 with
    | some e => (r.1, r.2.1, some e)
    | none => ritoUpdTournamentList rosters rest r.1 r.2.1

/-- `RitoProvider.UpdateMatches` (lines 319-348): refetch the descriptor
(failure or a missing `'leagues'` key aborts with `[]` and no mutation), then
patch every known match of every active tournament.  The state is returned
next to the `Except`: mutations made before an exception persist. -/
def ritoUpdateMatches (fetch : Option RitoLeagueDoc) (now : Int) (s : RitoState) :
    RitoState × Except PyErr (List String) :=
  match fetch with
  | none => (s, Except.ok [])
  | some doc =>
    if !doc.hasLeagues then (s, Except.ok [])
    else
      let r := ritoUpdTournamentList s.rosters
        (findActiveTournaments now doc.highlanderTournaments) s.mmatches []
      ({ s with mmatches := r.1 },
       match r.2.2 with
       | some e => Except.error e
       | none => Except.ok r.2.1)

/-! ### GrumbleProvider: LoadData and UpdateMatches (claims C2, C4, C8, C10) -/

/-- `GrumbleProvider`'s mutable state. -/
structure GrumbleState where
  teams : List (String × Team)
  brackets : List (String × Bracket)
  mmatches : Heap
deriving DecidableEq, Repr

/-- The players of one team response (lines 509-513): each gets
`random.choice(['Fill', 'Feed'])` as position — `rng k = true` draws
`'Fill'`.  `k` indexes the random stream across the whole load. -/
def gMakePlayers (rng : Nat → Bool) (tid : String) :
    List String → Nat → List Player × Nat
  | [], k => ([], k)
  | nm :: rest, k =>
    let p : Player :=
      { summoner_name := nm, team_id := tid,
        position := if rng k then "Fill" else "Feed", is_substitute := false }
    let r := gMakePlayers rng tid rest (k + 1)
    (p :: r.1, r.2)

/-- The per-team player fetch loop of `GrumbleProvider.LoadData` (lines
504-513): a falsy team response is skipped; otherwise the fetched players are
added to the team. -/
def gAddPlayers (teamResp : String → Option (List String)) (rng : Nat → Bool) :
    List (String × Team) → Nat → List (String × Team) × Nat
  | [], k => ([], k)
  | (tid, tm) :: rest, k =>
    match teamResp tid with
    | none =>
      let r := gAddPlayers teamResp rng rest k
      ((tid, tm) :: r.1, r.2)
    | some names =>
      let ps := gMakePlayers rng tid names k
      let r := gAddPlayers teamResp rng rest ps.2
      ((tid, { tm with players := tm.players ++ ps.1 }) :: r.1, r.2)

/-- `GrumbleProvider.LoadData` (lines 478-513): clear all provider state,
build the season bracket and parse its schedule, then the playoffs bracket
and its schedule, then fetch each team's players.  A failed bracket fetch
(`FetchJson` returning `None`) raises `TypeError` at `response['schedule']`,
escaping with the partially rebuilt state; the error is returned next to the
state reached. -/
def grumbleLoadData (division realm : String)
    (seasonResp playoffResp : Option GrumbleResp)
    (teamResp : String → Option (List String)) (rng : Nat → Bool)
    (_s : GrumbleState) : GrumbleState × Option PyErr :=
  let league_id := "grumble-" ++ division
  let s1 : GrumbleState := { teams := [], brackets := [], mmatches := [] }
  let seasonB : Bracket :=
    { bracket_id := league_id ++ "-season", name := "Regular Season",
      league_id := league_id, is_playoffs := false, standings := [], schedule := [] }
  let s2 := { s1 with brackets := [("season", seasonB)] }
  match seasonResp with
  | none => (s2, some PyErr.typeError)
  | some resp =>
    let out := grumbleParseSchedule league_id seasonB.bracket_id realm
      resp.schedule s2.mmatches s2.teams
    let seasonB2 := { seasonB with standings := out.standings, schedule := out.schedule }
    let s3 : GrumbleState :=
      { teams := out.teams, brackets := [("season", seasonB2)], mmatches := out.heap }
    let playB : Bracket :=
      { bracket_id := league_id ++ "-playoffs", name := "Playoffs",
        league_id := league_id, is_playoffs := true, standings := [], schedule := [] }
    let s4 := { s3 with brackets := s3.brackets ++ [("playoffs", playB)] }
    match playoffResp with
    | none => (s4, some PyErr.typeError)
    | some presp =>
      let pout := grumbleParseSchedule league_id playB.bracket_id realm
        presp.schedule s4.mmatches s4.teams
      let playB2 := { playB with standings := pout.standings, schedule := pout.schedule }
      let s5 : GrumbleState :=
        { teams := pout.teams,
          brackets := [("season", seasonB2), ("playoffs", playB2)],
          mmatches := pout.heap }
      let tr := gAddPlayers teamResp rng s5.teams 0
      ({ s5 with teams := tr.1 }, none)

/-- The winner fold of `_UpdateSchedule`'s team loop (lines 528-535): skip a
team without a ref id or with a falsy outcome; VICTORY sets the team id, TIE
sets `'TIE'`, a loss leaves the winner alone. -/
def gUpdTeam (t : GTeamRef) (winner : String) : String :=
  match t.id with
  | none => winner
  | some tid =>
    match t.outcome with
    | Outcome.empty => winner
    | Outcome.victory => tid
    | Outcome.tie => "TIE"
    | Outcome.other => winner

/-- One match of `GrumbleProvider._UpdateSchedule` (lines 520-537): rebuild
the deterministic match id, skip unknown or already-wonnered matches,
otherwise fold both teams' outcomes into the winner; if a winner emerged,
store it in the shared cell and append the match to the updated list. -/
def gUpdMatch (league_id bracket_id : String) (count : Nat) (mt : GMatch)
    (heap : Heap) (acc : List String) : Heap × List String :=
  let mid := league_id ++ "-" ++ bracket_id ++ "-" ++ toString count
  match heapGet heap mid with
  | none => (heap, acc)
  | some old =>
    if old.winner ≠ "" then (heap, acc)
    else
      let w := gUpdTeam mt.team2 (gUpdTeam mt.team1 old.winner)
      if w ≠ "" then (heapSet heap mid { old with winner := w }, acc ++ [mid])
      else (heap, acc)

def gUpdMatchList (league_id bracket_id : String) :
    List GMatch → Nat → Heap → List String → Nat × Heap × List String
  | [], count, heap, acc => (count, heap, acc)
  | mt :: rest, count, heap, acc =>
    let r := gUpdMatch league_id bracket_id (count + 1) mt heap acc
    gUpdMatchList league_id bracket_id rest (count + 1) r.1 r.2

def gUpdWeekList (league_id bracket_id : String) :
    List GWeek → Nat → Heap → List String → Nat × Heap × List String
  | [], count, heap, acc => (count, heap, acc)
  | w :: rest, count, heap, acc =>
    let r := gUpdMatchList league_id bracket_id w.gmatches count heap acc
    gUpdWeekList league_id bracket_id rest r.1 r.2.1 r.2.2

/-- `GrumbleProvider._UpdateSchedule` (lines 515-538). -/
def grumbleUpdateSchedule (schedule : List GWeek) (league_id bracket_id : String)
    (heap : Heap) : Heap × List String :=
  let r := gUpdWeekList league_id bracket_id schedule 0 heap []
  (r.2.1, r.2.2)

/-- `GrumbleProvider.UpdateMatches` (lines 540-555): refetch both brackets
and update not-yet-wonnered matches.  A failed fetch raises `TypeError` (the
subscript of a `None` response) and a missing bracket entry `KeyError`; the
mutations already made persist. -/
def grumbleUpdateMatches (division : String)
    (seasonResp playoffResp : Option GrumbleResp) (s : GrumbleState) :
    GrumbleState × Except PyErr (List String) :=
  let league_id := "grumble-" ++ division
  match seasonResp with
  | none => (s, Except.error PyErr.typeError)
  | some resp =>
    match alistGet s.brackets "season" with
    | none => (s, Except.error PyErr.keyError)
    | some sb =>
      let r1 := grumbleUpdateSchedule resp.schedule league_id sb.bracket_id s.mmatches
      match playoffResp with
      | none => ({ s with mmatches := r1.1 }, Except.error PyErr.typeError)
      | some presp =>
        match alistGet s.brackets "playoffs" with
        | none => ({ s with mmatches := r1.1 }, Except.error PyErr.keyError)
        | some pb =>
          let r2 := grumbleUpdateSchedule presp.schedule league_id pb.bracket_id r1.1
          ({ s with mmatches := r2.1 }, Except.ok (r1.2 ++ r2.2))

/-! ### `GetResults` over the shared match heap (claim C8) -/

/-- The structured facts one `GetResults` line reports: the two teams and the
winner (`util_lib.Colorize` and the Won!/Lost/Tie phrasing are
presentation-only). -/
structure ResultEntry where
  blue : String
  red : String
  winner : String
deriving DecidableEq, Repr

/-- `EsportsLib._ResultIsInteresting` (lines 924-929): a match is a result if
the qualifier is `'All'` or matches the bracket's league or either team, and
the winner is set.  `leagueOf` abstracts `self.brackets[bracket_id].league_id`
(total: every scheduled match's bracket is registered). -/
def resultIsInteresting (leagueOf : String → String) (heap : Heap)
    (qualifier : String) (mid : String) : Bool :=
  match heapGet heap mid with
  | none => false
  | some m =>
    (qualifier == "All" || qualifier == leagueOf m.bracket_id ||
     qualifier == m.blue || qualifier == m.red) && !(m.winner == "")

def resultEntryOf (heap : Heap) (mid : String) : ResultEntry :=
  match heapGet heap mid with
  | some m => { blue := m.blue, red := m.red, winner := m.winner }
  | none => { blue := "", red := "", winner := "" }

/-- The walk of `GetResults` (lines 781-803): iterate, appending interesting
matches, and break as soon as `num_games` entries are collected (the final
`[:num_games]` slice is applied by `getResults`). -/
def resultsLoop (p : String → Bool) (f : String → ResultEntry) (num_games : Nat) :
    List String → List ResultEntry
  | [] => []
  | mid :: rest =>
    if p mid then
      if num_games ≤ 1 then [f mid]
      else f mid :: resultsLoop p f (num_games - 1) rest
    else resultsLoop p f num_games rest

/-- `EsportsLib.GetResults` (lines 769-803) after qualifier resolution: walk
the engine schedule in reverse chronological order over the shared heap. -/
def getResults (leagueOf : String → String) (heap : Heap) (schedule : List String)
    (qualifier : String) (num_games : Nat) : List ResultEntry :=
  (resultsLoop (resultIsInteresting leagueOf heap qualifier) (resultEntryOf heap)
      num_games schedule.reverse).take num_games

/-! ### Claim C2: failed league-descriptor fetch -/

/-- A Rito provider with previously-loaded data, for the C2 counterexample. -/
def c2RitoState : RitoState :=
  { teams := [("1", c6Team)],
    brackets := [],
    rosters := [("r1", c6Team)],
    mmatches := [("m1", ritoNewMatch "m1" "b" "TSM" "C9")] }

def c2Doc : RitoLeagueDoc := { hasLeagues := false, highlanderTournaments := [] }

/-! ### Claim C4: reload determinism -/

def erasePlayerPosition (p : Player) : Player := { p with position := "" }

def eraseTeamPositions (t : Team) : Team :=
  { t with players := t.players.map erasePlayerPosition }

def gEmptyState : GrumbleState := { teams := [], brackets := [], mmatches := [] }

def c4SeasonResp : GrumbleResp :=
  { schedule := [{ gmatches := [{ team1 := c7Team "A" "Alpha" Outcome.victory,
                                  team2 := c7Team "B" "Beta" Outcome.other,
                                  timestampSec := 1, games := [] }] }] }

def c4TeamResp : String → Option (List String) :=
  fun tid => if tid = "A" then some ["player1"] else none

/-! ### Claim C8: poll-updated winners and the next `GetResults` -/

/-- Every id in `acc` names a heap cell whose winner is set. -/
def updatedHaveWinners (heap : Heap) (acc : List String) : Prop :=
  ∀ mid ∈ acc, ∃ m, heapGet heap mid = some m ∧ m.winner ≠ ""

def c8MatchId (k : Nat) : String := "grumble-D1-grumble-D1-season-" ++ toString k

def c8MatchK (k : Nat) (w : String) : MatchData :=
  { match_id := c8MatchId k, bracket_id := "grumble-D1-season",
    blue := "B" ++ toString k, red := "R" ++ toString k,
    timestamp := (k : Int), winner := w, games := [] }

/-- Six completed-or-pending matches; the oldest (k = 1) has no winner yet. -/
def c8Heap : Heap :=
  [(c8MatchId 1, c8MatchK 1 ""), (c8MatchId 2, c8MatchK 2 "TIE"),
   (c8MatchId 3, c8MatchK 3 "TIE"), (c8MatchId 4, c8MatchK 4 "TIE"),
   (c8MatchId 5, c8MatchK 5 "TIE"), (c8MatchId 6, c8MatchK 6 "TIE")]

/-- The poll response: the first (and only revisited) match is now won by A. -/
def c8Weeks : List GWeek :=
  [{ gmatches := [{ team1 := c7Team "A" "Alpha" Outcome.victory,
                    team2 := { id := none, displayName := "", outcome := Outcome.empty },
                    timestampSec := 1, games := [] }] }]

def c8Schedule : List String :=
  [c8MatchId 1, c8MatchId 2, c8MatchId 3, c8MatchId 4, c8MatchId 5,
   c8MatchId 6]

def c8wHeap : Heap := [(c8MatchId 1, c8MatchK 1 "")]

/-! ### Claim C10: the poll path's frame -/

/-- The per-match frame: the fields `UpdateMatches` may never touch —
everything except `winner`, `blue` and `red`. -/
def frameEq (m m' : MatchData) : Prop :=
  m'.match_id = m.match_id ∧ m'.bracket_id = m.bracket_id ∧
  m'.timestamp = m.timestamp ∧ m'.games = m.games

/-- Heap-level frame: the set (and order) of match ids is unchanged, and
every cell is the old cell with at most `winner`/`blue`/`red` mutated. -/
def heapFrame (h h' : Heap) : Prop :=
  heapIds h' = heapIds h ∧
  ∀ mid m', heapGet h' mid = some m' →
    ∃ m, heapGet h mid = some m ∧ frameEq m m'

/-- The engine's closed set of provider variants (Grumble divisions and Rito
regions); each value carries the provider's state together with the upstream
responses its next `UpdateMatches` call will consume. -/
inductive Provider
  | rito (fetch : Option RitoLeagueDoc) (now : Int) (s : RitoState)
  | grumble (division : String) (seasonResp playoffResp : Option GrumbleResp)
      (s : GrumbleState)

/-- The provider's `_matches` map. -/
def Provider.matchHeap : Provider → Heap
  | Provider.rito _ _ s => s.mmatches
  | Provider.grumble _ _ _ s => s.mmatches

/-- `provider.UpdateMatches()` dispatched over the two variants. -/
def providerUpdateMatches : Provider → Provider × Except PyErr (List String)
  | Provider.rito fetch now s =>
    (Provider.rito fetch now (ritoUpdateMatches fetch now s).1,
      (ritoUpdateMatches fetch now s).2)
  | Provider.grumble d se pl s =>
    (Provider.grumble d se pl (grumbleUpdateMatches d se pl s).1,
      (grumbleUpdateMatches d se pl s).2)

/-- `EsportsLib.UpdateEsportsMatches` (lines 706-711): run every provider's
`UpdateMatches` in order, concatenating the returned updated matches; an
exception from one provider aborts the loop (there is no try/except), so
later providers are untouched and no list is returned. -/
def updateEsportsMatches : List Provider → List Provider × Except PyErr (List String)
  | [] => ([], Except.ok [])
  | p :: ps =>
    match (providerUpdateMatches p).2 with
    | Except.error e => ((providerUpdateMatches p).1 :: ps, Except.error e)
    | Except.ok l =>
      match (updateEsportsMatches ps).2 with
      | Except.error e =>
        ((providerUpdateMatches p).1 :: (updateEsportsMatches ps).1, Except.error e)
      | Except.ok l2 =>
        ((providerUpdateMatches p).1 :: (updateEsportsMatches ps).1,
          Except.ok (l ++ l2))

/-- What one poll step may not change in a provider: its teams, its brackets
(standings included), its rosters, its fetch inputs and the identity of every
match cell — only winner/blue/red are mutable, per `frameEq`. -/
def provFrame : Provider → Provider → Prop
  | Provider.rito f n s, Provider.rito f' n' s' =>
    f' = f ∧ n' = n ∧ s'.teams = s.teams ∧ s'.brackets = s.brackets ∧
    s'.rosters = s.rosters ∧ heapFrame s.mmatches s'.mmatches
  | Provider.grumble d se pl s, Provider.grumble d' se' pl' s' =>
    d' = d ∧ se' = se ∧ pl' = pl ∧ s'.teams = s.teams ∧
    s'.brackets = s.brackets ∧ heapFrame s.mmatches s'.mmatches
  | _, _ => False

def c10GrumbleState : GrumbleState :=
  { teams := [],
    brackets :=
      [("season", { bracket_id := "grumble-D1-season", name := "Regular Season",
                    league_id := "grumble-D1", is_playoffs := false,
                    standings := [], schedule := [c8MatchId 1] }),
       ("playoffs", { bracket_id := "grumble-D1-playoffs", name := "Playoffs",
                      league_id := "grumble-D1", is_playoffs := true,
                      standings := [], schedule := [] })],
    mmatches := c8wHeap }

def c10Providers : List Provider :=
  [Provider.grumble "D1" (some { schedule := c8Weeks }) (some { schedule := [] })
    c10GrumbleState]

/-! ## Theorems -/

theorem alistGet_alistModify {α : Type} (l : List (String × α)) (key j : String) (f : α → α) :
    alistGet (alistModify l key f) j =
      if j = key then (alistGet l key).map f else alistGet l j := by
  induction l with
  | nil =>
    by_cases h : j = key <;> simp [alistGet, alistModify, h]
  | cons p rest ih =>
    obtain ⟨k, v⟩ := p
    simp only [alistModify]
    by_cases hk : k = key
    · simp only [if_pos hk]
      by_cases hj : k = j
      · subst hj
        simp [alistGet, hk]
      · have hjk : ¬ j = key := by
          rw [← hk]; exact fun h => hj h.symm
        simp [alistGet, hj, hjk]
    · simp only [if_neg hk]
      by_cases hj : k = j
      · subst hj
        simp [alistGet, hk]
      · simp [alistGet, hj, hk, ih]

theorem alistAll_alistModify {α : Type} {P : α → Prop} {l : List (String × α)}
    (h : alistAll P l) (key : String) {f : α → α} (hf : ∀ a, P a → P (f a)) :
    alistAll P (alistModify l key f) := by
  induction l with
  | nil => simpa [alistModify] using h
  | cons p rest ih =>
    obtain ⟨k, v⟩ := p
    by_cases hk : k = key
    · simp only [alistModify, hk, if_pos rfl]
      intro q hq
      rcases List.mem_cons.mp hq with hq | hq
      · subst hq; exact hf _ (h _ (List.mem_cons_self _ _))
      · exact h _ (List.mem_cons_of_mem _ hq)
    · simp only [alistModify, if_neg hk]
      intro q hq
      rcases List.mem_cons.mp hq with hq | hq
      · subst hq; exact h _ (List.mem_cons_self _ _)
      · exact ih (fun q hq => h _ (List.mem_cons_of_mem _ hq)) _ hq

theorem alistAll_append {α : Type} {P : α → Prop} {l₁ l₂ : List (String × α)}
    (h₁ : alistAll P l₁) (h₂ : alistAll P l₂) : alistAll P (l₁ ++ l₂) := by
  intro p hp
  rcases List.mem_append.mp hp with hp | hp
  · exact h₁ _ hp
  · exact h₂ _ hp

theorem mem_insertBy {α : Type} (c : α → α → Bool) (x : α) (l : List α) (a : α) :
    a ∈ insertBy c x l ↔ a = x ∨ a ∈ l := by
  induction l with
  | nil => simp [insertBy]
  | cons y ys ih =>
    by_cases h : c x y
    · simp [insertBy, h]
    · simp [insertBy, h, ih]
      tauto

theorem mem_sortBy {α : Type} (c : α → α → Bool) (l : List α) (a : α) :
    a ∈ sortBy c l ↔ a ∈ l := by
  induction l with
  | nil => simp [sortBy]
  | cons y ys ih =>
    simp only [sortBy, List.foldr] at *
    rw [mem_insertBy]
    simp [ih]

theorem pairwise_insertBy {α : Type} {c : α → α → Bool}
    (htot : ∀ a b, c a b = false → c b a = true)
    (htrans : ∀ a b d, c a b = true → c b d = true → c a d = true)
    (x : α) {l : List α} (hl : List.Pairwise (fun a b => c a b = true) l) :
    List.Pairwise (fun a b => c a b = true) (insertBy c x l) := by
  induction l with
  | nil => simp [insertBy]
  | cons y ys ih =>
    rcases List.pairwise_cons.mp hl with ⟨hy, hys⟩
    by_cases h : c x y
    · simp only [insertBy, if_pos h]
      refine List.pairwise_cons.mpr ⟨?_, hl⟩
      intro b hb
      rcases List.mem_cons.mp hb with hb | hb
      · subst hb; exact h
      · exact htrans x y b h (hy b hb)
    · simp only [insertBy, if_neg h]
      refine List.pairwise_cons.mpr ⟨?_, ih hys⟩
      intro b hb
      rcases (mem_insertBy c x ys b).mp hb with hb | hb
      · exact hb ▸ htot x y (Bool.eq_false_iff.mpr h)
      · exact hy b hb

theorem pairwise_sortBy {α : Type} {c : α → α → Bool}
    (htot : ∀ a b, c a b = false → c b a = true)
    (htrans : ∀ a b d, c a b = true → c b d = true → c a d = true)
    (l : List α) :
    List.Pairwise (fun a b => c a b = true) (sortBy c l) := by
  induction l with
  | nil => simp [sortBy]
  | cons y ys ih => exact pairwise_insertBy htot htrans y ih

/-- Stability, phrased as preservation of any pairwise property `Q` that is
vacuous on strictly reordered pairs: insertion only moves `x` behind `y` when
`c x y = false`. -/
theorem pairwise_insertBy_of_pairwise {α : Type} {c : α → α → Bool} {Q : α → α → Prop}
    (x : α) {l : List α} (hl : List.Pairwise Q l) (hx : ∀ a ∈ l, Q x a)
    (hc : ∀ y, c x y = false → Q y x) :
    List.Pairwise Q (insertBy c x l) := by
  induction l with
  | nil => simp [insertBy]
  | cons y ys ih =>
    rcases List.pairwise_cons.mp hl with ⟨hy, hys⟩
    by_cases h : c x y
    · simp only [insertBy, if_pos h]
      refine List.pairwise_cons.mpr ⟨?_, hl⟩
      intro b hb
      rcases List.mem_cons.mp hb with hb | hb
      · exact hb ▸ hx y (List.mem_cons_self _ _)
      · exact hx b (List.mem_cons_of_mem _ hb)
    · simp only [insertBy, if_neg h]
      refine List.pairwise_cons.mpr
        ⟨?_, ih hys (fun a ha => hx a (List.mem_cons_of_mem _ ha))⟩
      intro b hb
      rcases (mem_insertBy c x ys b).mp hb with hb | hb
      · exact hb ▸ hc y (Bool.eq_false_iff.mpr h)
      · exact hy b hb

theorem pairwise_sortBy_of_pairwise {α : Type} {c : α → α → Bool} {Q : α → α → Prop}
    {l : List α} (hl : List.Pairwise Q l)
    (hc : ∀ x y, c x y = false → Q y x) :
    List.Pairwise Q (sortBy c l) := by
  induction l with
  | nil => simp [sortBy]
  | cons y ys ih =>
    rcases List.pairwise_cons.mp hl with ⟨hy, hys⟩
    refine pairwise_insertBy_of_pairwise y (ih hys) ?_ (fun b hb => hc y b hb)
    intro a ha
    exact hy a ((mem_sortBy c ys a).mp ha)

theorem heapIds_heapSet (h : Heap) (key : String) (m : MatchData) :
    heapIds (heapSet h key m) = heapIds h := by
  induction h with
  | nil => rfl
  | cons p rest ih =>
    obtain ⟨k, v⟩ := p
    by_cases hk : k = key
    · simp [heapSet, heapIds, hk]
    · simp only [heapSet, if_neg hk, heapIds, List.map_cons] at *
      rw [ih]

theorem heapGet_heapSet (h : Heap) (key j : String) (m : MatchData) :
    heapGet (heapSet h key m) j =
      if j = key ∧ (heapGet h key).isSome then some m else heapGet h j := by
  induction h with
  | nil =>
    simp [heapSet, heapGet]
  | cons p rest ih =>
    obtain ⟨k, v⟩ := p
    by_cases hk : k = key
    · subst hk
      by_cases hj : k = j
      · subst hj
        simp [heapSet, heapGet]
      · have hjk : ¬ j = k := fun hh => hj hh.symm
        simp [heapSet, heapGet, hj, hjk]
    · by_cases hj : k = j
      · subst hj
        simp [heapSet, heapGet, hk]
      · simp [heapSet, heapGet, hk, hj, ih]

theorem heapGet_isSome_iff_mem (h : Heap) (key : String) :
    (heapGet h key).isSome ↔ key ∈ heapIds h := by
  induction h with
  | nil => simp [heapGet, heapIds]
  | cons p rest ih =>
    obtain ⟨k, v⟩ := p
    by_cases hk : k = key
    · simp [heapGet, heapIds, hk]
    · simp only [heapGet, if_neg hk, heapIds, List.map_cons, List.mem_cons]
      rw [show (heapIds rest = List.map Prod.fst rest) from rfl] at ih
      rw [ih]
      constructor
      · intro hh
        exact Or.inr hh
      · rintro (hh | hh)
        · exact absurd hh.symm hk
        · exact hh

theorem gPerTeam_pointsOk (league_id : String) (t : GTeamRef) (winner : String)
    (teams : List (String × Team)) (standings : List (String × TeamStanding))
    (h : alistAll pointsOk standings) :
    alistAll pointsOk (gPerTeam league_id t winner teams standings).2.2 := by
  unfold gPerTeam
  cases t.id with
  | none => exact h
  | some tid =>
    dsimp only
    have h1 : alistAll pointsOk
        (if (alistGet standings tid).isSome then standings
         else standings ++
           [(tid, { rank := 0,
                    team := match alistGet teams tid with
                      | some tm => tm
                      | none => { team_id := tid, name := t.displayName,
                                  league_id := league_id, players := [] },
                    wins := 0, losses := 0, ties := 0, points := 0 })]) := by
      split
      · exact h
      · refine alistAll_append h ?_
        intro p hp
        rcases List.mem_singleton.mp hp with rfl
        rfl
    cases t.outcome with
    | empty => exact h1
    | victory =>
      refine alistAll_alistModify h1 tid ?_
      intro a ha
      unfold pointsOk at ha ⊢
      show a.points + 3 = 3 * (a.wins + 1) + 1 * a.ties
      omega
    | tie =>
      refine alistAll_alistModify h1 tid ?_
      intro a ha
      unfold pointsOk at ha ⊢
      show a.points + 1 = 3 * a.wins + 1 * (a.ties + 1)
      omega
    | other =>
      refine alistAll_alistModify h1 tid ?_
      intro a ha
      exact ha

theorem gPerMatch_pointsOk (league_id bracket_id realm : String) (mt : GMatch)
    (st : GParseSt) (h : alistAll pointsOk st.standings) :
    alistAll pointsOk (gPerMatch league_id bracket_id realm mt st).standings := by
  unfold gPerMatch
  dsimp only
  exact gPerTeam_pointsOk _ _ _ _ _ (gPerTeam_pointsOk _ _ _ _ _ h)

theorem gParseMatches_pointsOk (league_id bracket_id realm : String) :
    ∀ (ml : List GMatch) (st : GParseSt), alistAll pointsOk st.standings →
      alistAll pointsOk (gParseMatches league_id bracket_id realm ml st).standings
  | [], _, h => h
  | mt :: rest, st, h =>
    gParseMatches_pointsOk league_id bracket_id realm rest _
      (gPerMatch_pointsOk league_id bracket_id realm mt st h)

theorem gParseWeeks_pointsOk (league_id bracket_id realm : String) :
    ∀ (weeks : List GWeek) (st : GParseSt), alistAll pointsOk st.standings →
      alistAll pointsOk (gParseWeeks league_id bracket_id realm weeks st).standings
  | [], _, h => h
  | w :: rest, st, h =>
    gParseWeeks_pointsOk league_id bracket_id realm rest _
      (gParseMatches_pointsOk league_id bracket_id realm w.gmatches st h)

theorem pointsOk_assignRanks :
    ∀ (l : List TeamStanding) (i rank : Nat) (cur : Int),
      (∀ s ∈ l, pointsOk s) → ∀ s ∈ assignRanks l i rank cur, pointsOk s
  | [], _, _, _, _, _, hs => absurd hs (List.not_mem_nil _)
  | t :: ts, i, rank, cur, h, s, hs => by
    simp only [assignRanks] at hs
    rcases List.mem_cons.mp hs with hs | hs
    · subst hs
      exact h t (List.mem_cons_self _ _)
    · exact pointsOk_assignRanks ts (i + 1) _ _
        (fun a ha => h a (List.mem_cons_of_mem _ ha)) s hs

theorem assignRanks_cons (t : TeamStanding) (ts : List TeamStanding)
    (i rank : Nat) (cur : Int) :
    assignRanks (t :: ts) i rank cur =
      { t with rank := if (t.points : Int) ≠ cur then i + 1 else rank } ::
        assignRanks ts (i + 1) (if (t.points : Int) ≠ cur then i + 1 else rank)
          (t.points : Int) := rfl

/-- Ranked output of the rank loop: adjacent entries have descending points
and share a rank exactly when their points are equal. -/
theorem chain'_assignRanks :
    ∀ (l : List TeamStanding) (i rank : Nat) (cur : Int),
      List.Chain' (fun a b => b.points ≤ a.points) l → rank ≤ i + 1 →
      List.Chain' (fun a b => b.points ≤ a.points ∧ (a.rank = b.rank ↔ a.points = b.points))
        (assignRanks l i rank cur)
  | [], _, _, _, _, _ => by simp [assignRanks]
  | [t], i, rank, cur, _, _ => by simp [assignRanks]
  | t :: t' :: ts, i, rank, cur, hs, hr => by
    rcases List.chain'_cons.mp hs with ⟨hpt, hs'⟩
    rw [assignRanks_cons]
    set r := if (t.points : Int) ≠ cur then i + 1 else rank with hrdef
    have hr1 : r ≤ i + 1 := by
      rw [hrdef]
      split
      · exact Nat.le_refl _
      · exact hr
    have ih := chain'_assignRanks (t' :: ts) (i + 1) r (t.points : Int) hs'
      (Nat.le_trans hr1 (Nat.le_succ _))
    rw [assignRanks_cons] at ih
    set r' := if (t'.points : Int) ≠ (t.points : Int) then i + 1 + 1 else r with hrdef'
    refine List.chain'_cons.mpr ⟨⟨hpt, ?_⟩, ih⟩
    show r = r' ↔ t.points = t'.points
    by_cases hpq : t'.points = t.points
    · have hre : r' = r := by
        rw [hrdef']
        simp [hpq]
      rw [hre]
      exact ⟨fun _ => hpq.symm, fun _ => rfl⟩
    · have hne : (t'.points : Int) ≠ (t.points : Int) := by
        exact_mod_cast hpq
      have hre : r' = i + 1 + 1 := by
        rw [hrdef']
        simp [hne]
      constructor
      · intro hrk
        rw [hre] at hrk
        omega
      · intro hh
        exact absurd hh.symm hpq

theorem pairwise_sortStandings (l : List TeamStanding) :
    List.Pairwise (fun a b => b.points ≤ a.points) (sortStandings l) := by
  have htot : ∀ a b : TeamStanding, (decide (b.points ≤ a.points)) = false →
      (decide (a.points ≤ b.points)) = true := by
    intro a b hab
    rw [decide_eq_false_iff_not] at hab
    exact decide_eq_true (le_of_not_le hab)
  have htrans : ∀ a b d : TeamStanding, (decide (b.points ≤ a.points)) = true →
      (decide (d.points ≤ b.points)) = true → (decide (d.points ≤ a.points)) = true := by
    intro a b d hab hbd
    exact decide_eq_true (le_trans (of_decide_eq_true hbd) (of_decide_eq_true hab))
  exact (pairwise_sortBy htot htrans l).imp (fun hab => of_decide_eq_true hab)

/-- **C7**: after `GrumbleProvider.LoadData` parses a bracket, every standings
entry's points equal 3 per win plus 1 per tie plus 0 per loss; the entries are
ordered by points descending (adjacent entries `i`, `i+1` satisfy
`points[i] ≥ points[i+1]`); equal-points neighbours share the same rank and
the rank changes exactly when the points decrease. -/
theorem C7_grumble_standings_invariant (league_id bracket_id realm : String)
    (weeks : List GWeek) (heap0 : Heap) (teams0 : List (String × Team)) :
    (∀ s ∈ (grumbleParseSchedule league_id bracket_id realm weeks heap0 teams0).standings,
        s.points = 3 * s.wins + 1 * s.ties) ∧
    List.Chain' (fun a b => b.points ≤ a.points ∧ (a.rank = b.rank ↔ a.points = b.points))
      (grumbleParseSchedule league_id bracket_id realm weeks heap0 teams0).standings := by
  have hkey : (grumbleParseSchedule league_id bracket_id realm weeks heap0 teams0).standings
      = assignRanks (sortStandings ((gParseWeeks league_id bracket_id realm weeks
          { match_count := 0, heap := heap0, schedule := [], teams := teams0,
            standings := [] }).standings.map Prod.snd)) 0 1 (-1) := rfl
  rw [hkey]
  have hbase : alistAll pointsOk (gParseWeeks league_id bracket_id realm weeks
      { match_count := 0, heap := heap0, schedule := [], teams := teams0,
        standings := [] }).standings :=
    gParseWeeks_pointsOk _ _ _ weeks _ (fun p hp => absurd hp (List.not_mem_nil _))
  have hmem : ∀ s ∈ ((gParseWeeks league_id bracket_id realm weeks
      { match_count := 0, heap := heap0, schedule := [], teams := teams0,
        standings := [] }).standings.map Prod.snd), pointsOk s := by
    intro s hs
    rcases List.mem_map.mp hs with ⟨p, hp, hps⟩
    exact hps ▸ hbase p hp
  constructor
  · intro s hs
    exact pointsOk_assignRanks _ 0 1 (-1)
      (fun a ha => hmem a ((mem_sortBy _ _ a).mp ha)) s hs
  · exact chain'_assignRanks _ 0 1 (-1)
      (List.Pairwise.chain' (pairwise_sortStandings _)) (by omega)

/-- Witness for C7 at the spec's Grumble scenario: the tied team C is an
actual standings entry and the theorem's points identity holds for it. -/
theorem C7_witness :
    c7Entry ∈ (grumbleParseSchedule "grumble-D1" "grumble-D1-season" "NA1"
        c7Weeks [] []).standings ∧
    c7Entry.points = 3 * c7Entry.wins + 1 * c7Entry.ties :=
  ⟨by decide,
   (C7_grumble_standings_invariant "grumble-D1" "grumble-D1-season" "NA1"
      c7Weeks [] []).1 c7Entry (by decide)⟩

/-- **C3 counterexample**: with two registered callbacks whose first raises,
only index 0 is invoked — the raising callback suppresses the remaining one,
so callback invocation is not exception-isolated. -/
theorem C3_counterexample :
    (runCallbacks (registerCallback (registerCallback [] (Except.error PyErr.typeError))
        (Except.ok ()))).1 = [0] ∧
    1 ∉ (runCallbacks (registerCallback (registerCallback [] (Except.error PyErr.typeError))
        (Except.ok ()))).1 ∧
    (runCallbacks (registerCallback (registerCallback [] (Except.error PyErr.typeError))
        (Except.ok ()))).2 = some PyErr.typeError := by
  decide

theorem runCallbacksGo_all_ok :
    ∀ (cbs : List (Except PyErr Unit)) (i : Nat),
      (∀ c ∈ cbs, c = Except.ok ()) →
      runCallbacksGo cbs i = (List.range' i cbs.length, none)
  | [], _, _ => rfl
  | cb :: rest, i, h => by
    have hcb : cb = Except.ok () := h cb (List.mem_cons_self _ _)
    subst hcb
    simp only [runCallbacksGo, List.length_cons, List.range'_succ]
    rw [runCallbacksGo_all_ok rest (i + 1) (fun c hc => h c (List.mem_cons_of_mem _ hc))]

theorem runCallbacksGo_first_error :
    ∀ (cbs : List (Except PyErr Unit)) (k i : Nat) (e : PyErr),
      cbs.get? k = some (Except.error e) →
      (∀ j, j < k → cbs.get? j = some (Except.ok ())) →
      runCallbacksGo cbs i = (List.range' i (k + 1), some e)
  | [], k, i, e, hk, _ => by simp at hk
  | cb :: rest, 0, i, e, hk, _ => by
    have hcb : cb = Except.error e := by simpa using hk
    subst hcb
    simp [runCallbacksGo, List.range'_succ]
  | cb :: rest, k + 1, i, e, hk, hbefore => by
    have hcb : cb = Except.ok () := by
      have h0 := hbefore 0 (Nat.succ_pos k)
      simpa using h0
    subst hcb
    have ih := runCallbacksGo_first_error rest k (i + 1) e (by simpa using hk)
      (fun j hj => by
        have hj1 := hbefore (j + 1) (Nat.succ_lt_succ hj)
        simpa using hj1)
    simp only [runCallbacksGo]
    rw [ih]
    simp [List.range'_succ]

/-- **C3 amended**: the callbacks run in registration order, but they are not
exception-isolated: the loop invokes callbacks 0..k in order, up to and
including the first raising callback k (all of them when none raises); the
raised exception escapes `LoadEsports` and the callbacks after k are never
invoked. -/
theorem C3_callbacks_in_order_until_first_error (cbs : List (Except PyErr Unit)) :
    ((∀ c ∈ cbs, c = Except.ok ()) →
      runCallbacks cbs = (List.range cbs.length, none)) ∧
    (∀ k e, cbs.get? k = some (Except.error e) →
      (∀ j, j < k → cbs.get? j = some (Except.ok ())) →
      runCallbacks cbs = (List.range (k + 1), some e)) := by
  constructor
  · intro h
    unfold runCallbacks
    rw [runCallbacksGo_all_ok cbs 0 h, List.range_eq_range']
  · intro k e hk hbefore
    unfold runCallbacks
    rw [runCallbacksGo_first_error cbs k 0 e hk hbefore, List.range_eq_range']

/-- Witness for the C3 amended theorem: three registered callbacks, the
middle one raising — exactly indices 0 and 1 run and the error escapes. -/
theorem C3_amended_witness :
    runCallbacks [Except.ok (), Except.error PyErr.keyError, Except.ok ()] =
      ([0, 1], some PyErr.keyError) := by
  have h := (C3_callbacks_in_order_until_first_error
    [Except.ok (), Except.error PyErr.keyError, Except.ok ()]).2 1 PyErr.keyError
    rfl
    (fun j hj => by
      interval_cases j
      rfl)
  rw [h]
  rfl

/-- **C6 counterexample**: a qualifier matching both indices resolves to the
*league* id, not the team id — the second `if` overwrites the first, so the
league match takes priority, contradicting the claim. -/
theorem C6_counterexample :
    resolveQualifier c6Teams c6Leagues "solo" = "NA" ∧
    resolveQualifier c6Teams c6Leagues "solo" ≠ c6Team.team_id := by
  refine ⟨rfl, ?_⟩
  intro h
  rw [show resolveQualifier c6Teams c6Leagues "solo" = "NA" from rfl] at h
  exact absurd h (by decide)

/-- **C6 amended**: the league match takes priority: when the qualifier is in
the league index the resolved qualifier is that league's id (even if it is
also in the team index); the team id is used only when the league lookup
misses; otherwise the qualifier stays `'All'`. -/
theorem C6_league_priority (teams : String → Option Team)
    (leagues : String → Option LeagueInfo) (subcommand : String) :
    (∀ l, leagues subcommand = some l →
      resolveQualifier teams leagues subcommand = l.league_id) ∧
    (leagues subcommand = none → ∀ t, teams subcommand = some t →
      resolveQualifier teams leagues subcommand = t.team_id) ∧
    (leagues subcommand = none → teams subcommand = none →
      resolveQualifier teams leagues subcommand = "All") := by
  refine ⟨?_, ?_, ?_⟩
  · intro l hl
    unfold resolveQualifier
    rw [hl]
  · intro hl t ht
    unfold resolveQualifier
    rw [hl, ht]
  · intro hl ht
    unfold resolveQualifier
    rw [hl, ht]

/-- Witness for the C6 amended theorem at concrete indices. -/
theorem C6_amended_witness :
    resolveQualifier c6Teams c6Leagues "solo" = c6League.league_id :=
  (C6_league_priority c6Teams c6Leagues "solo").1 c6League rfl

/-- **C5, the code at the failing input**: match `m2` never appears in
`scheduleItems`, so it keeps timestamp `0` and sorts *before* the scheduled
match `m1`, and its timestamp is not the far-future sentinel the read path
looks for — unscheduled matches sort first, not last. -/
theorem C5_unscheduled_sorts_first :
    engineSortSchedule ((c5Heap.map Prod.snd)) =
      [ritoNewMatch "m2" "b" "FOX" "FLY",
       { ritoNewMatch "m1" "b" "TSM" "C9" with timestamp := 1500000000 }] ∧
    (ritoNewMatch "m2" "b" "FOX" "FLY").timestamp = 0 ∧
    (ritoNewMatch "m2" "b" "FOX" "FLY").timestamp ≠ arrowMaxTimestamp := by
  refine ⟨by decide, rfl, by decide⟩

theorem pairwise_and {α : Type} {R S : α → α → Prop} :
    ∀ {l : List α}, List.Pairwise R l → List.Pairwise S l →
      List.Pairwise (fun a b => R a b ∧ S a b) l
  | [], _, _ => List.Pairwise.nil
  | _ :: _, hr, hs => by
    rcases List.pairwise_cons.mp hr with ⟨hr1, hr2⟩
    rcases List.pairwise_cons.mp hs with ⟨hs1, hs2⟩
    exact List.pairwise_cons.mpr ⟨fun b hb => ⟨hr1 b hb, hs1 b hb⟩, pairwise_and hr2 hs2⟩

/-- **C9**: `GetTopPickBanChamps` first excludes every champion below the 5%
pick floor (with every champion at or above it surviving the filter), then
orders the survivors with the caller-supplied key as primary sort key and
pick count as secondary (adjacent output entries have descending primary
keys, and equal primary keys imply descending picks), returning at most the
top 5. -/
theorem C9_top_pick_ban_champs (champs : List (String × ChampStats)) (num_games : Nat)
    (sort_key_fn : ChampStats → Int) :
    (getTopPickBanChamps champs num_games sort_key_fn true).length ≤ 5 ∧
    (∀ x ∈ getTopPickBanChamps champs num_games sort_key_fn true,
        num_games ≤ 20 * x.2.picks) ∧
    (∀ x ∈ champs, num_games ≤ 20 * x.2.picks →
        x ∈ pickBanFloorSurvivors champs num_games) ∧
    (∀ x ∈ champs, 20 * x.2.picks < num_games →
        x ∉ getTopPickBanChamps champs num_games sort_key_fn true) ∧
    List.Chain' (fun a b => sort_key_fn b.2 ≤ sort_key_fn a.2 ∧
        (sort_key_fn a.2 = sort_key_fn b.2 → b.2.picks ≤ a.2.picks))
      (getTopPickBanChamps champs num_games sort_key_fn true) := by
  have hcomp : (fun a b : String × ChampStats =>
      if (true : Bool) then decide (sort_key_fn b.2 ≤ sort_key_fn a.2)
      else decide (sort_key_fn a.2 ≤ sort_key_fn b.2)) =
      (fun a b : String × ChampStats => decide (sort_key_fn b.2 ≤ sort_key_fn a.2)) := by
    funext a b
    simp
  have hmem_res : ∀ x ∈ getTopPickBanChamps champs num_games sort_key_fn true,
      x ∈ pickBanFloorSurvivors champs num_games := by
    intro x hx
    have hx1 := List.take_subset 5 _ hx
    rw [hcomp] at hx1
    have hx2 := (mem_sortBy _ _ x).mp hx1
    exact (mem_sortBy _ _ x).mp hx2
  refine ⟨?_, ?_, ?_, ?_, ?_⟩
  · exact List.length_take_le 5 _
  · intro x hx
    have hx3 := hmem_res x hx
    unfold pickBanFloorSurvivors at hx3
    exact of_decide_eq_true (List.mem_filter.mp hx3).2
  · intro x hx hfloor
    unfold pickBanFloorSurvivors
    exact List.mem_filter.mpr ⟨hx, decide_eq_true hfloor⟩
  · intro x hx hlow hres
    have hx3 := hmem_res x hres
    unfold pickBanFloorSurvivors at hx3
    have hge := of_decide_eq_true (List.mem_filter.mp hx3).2
    omega
  · -- ordering: primary key descending, picks descending on primary ties
    have hQ1 : List.Pairwise
        (fun a b : String × ChampStats => sort_key_fn a.2 = sort_key_fn b.2 → b.2.picks ≤ a.2.picks)
        (sortBy (fun a b => decide (b.2.picks ≤ a.2.picks))
          (pickBanFloorSurvivors champs num_games)) := by
      have hpicks : List.Pairwise
          (fun a b : String × ChampStats => (decide (b.2.picks ≤ a.2.picks)) = true)
          (sortBy (fun a b => decide (b.2.picks ≤ a.2.picks))
            (pickBanFloorSurvivors champs num_games)) := by
        refine pairwise_sortBy ?_ ?_ _
        · intro a b hab
          rw [decide_eq_false_iff_not] at hab
          exact decide_eq_true (le_of_not_le hab)
        · intro a b d hab hbd
          exact decide_eq_true (le_trans (of_decide_eq_true hbd) (of_decide_eq_true hab))
      exact hpicks.imp (fun hab => fun _ => of_decide_eq_true hab)
    have hQ2 : List.Pairwise
        (fun a b : String × ChampStats => sort_key_fn a.2 = sort_key_fn b.2 → b.2.picks ≤ a.2.picks)
        (sortBy (fun a b => decide (sort_key_fn b.2 ≤ sort_key_fn a.2))
          (sortBy (fun a b => decide (b.2.picks ≤ a.2.picks))
            (pickBanFloorSurvivors champs num_games))) := by
      refine pairwise_sortBy_of_pairwise hQ1 ?_
      intro x y hxy heq
      rw [decide_eq_false_iff_not] at hxy
      exact absurd (le_of_eq heq) hxy
    have hK : List.Pairwise
        (fun a b : String × ChampStats => (decide (sort_key_fn b.2 ≤ sort_key_fn a.2)) = true)
        (sortBy (fun a b => decide (sort_key_fn b.2 ≤ sort_key_fn a.2))
          (sortBy (fun a b => decide (b.2.picks ≤ a.2.picks))
            (pickBanFloorSurvivors champs num_games))) := by
      refine pairwise_sortBy ?_ ?_ _
      · intro a b hab
        rw [decide_eq_false_iff_not] at hab
        exact decide_eq_true (le_of_not_le hab)
      · intro a b d hab hbd
        exact decide_eq_true (le_trans (of_decide_eq_true hbd) (of_decide_eq_true hab))
    have hboth := pairwise_and hK hQ2
    have htake := hboth.sublist (List.take_sublist 5 _)
    have hfinal : List.Pairwise (fun a b : String × ChampStats =>
        sort_key_fn b.2 ≤ sort_key_fn a.2 ∧
        (sort_key_fn a.2 = sort_key_fn b.2 → b.2.picks ≤ a.2.picks))
        (getTopPickBanChamps champs num_games sort_key_fn true) := by
      unfold getTopPickBanChamps
      rw [hcomp]
      exact htake.imp (fun hab => ⟨of_decide_eq_true hab.1, hab.2⟩)
    exact hfinal.chain'

/-- Witness for C9 at the spec scenario: with 100 games the champ picked 4
times is excluded and the champ picked exactly 5 times survives the floor. -/
theorem C9_witness :
    ("Ahri", ({ picks := 4, bans := 10, wins := 2 } : ChampStats)) ∉
      getTopPickBanChamps c9Champs 100 (fun s => (s.bans : Int)) true ∧
    ("Zed", ({ picks := 5, bans := 0, wins := 3 } : ChampStats)) ∈
      pickBanFloorSurvivors c9Champs 100 :=
  ⟨(C9_top_pick_ban_champs c9Champs 100 (fun s => (s.bans : Int))).2.2.2.1
      _ (by decide) (by decide),
   (C9_top_pick_ban_champs c9Champs 100 (fun s => (s.bans : Int))).2.2.1
      _ (by decide) (by decide)⟩

/-- **C2 counterexample**: on a failed league-descriptor fetch,
`RitoProvider.LoadData` does NOT leave the previously-loaded teams and
matches untouched — it cleared them before checking the fetch result. -/
theorem C2_counterexample :
    (ritoLoadData id none c2RitoState).teams = [] ∧
    (ritoLoadData id none c2RitoState).mmatches = [] ∧
    c2RitoState.teams ≠ [] ∧ c2RitoState.mmatches ≠ [] :=
  ⟨rfl, rfl, by decide, by decide⟩

/-- **C2 amended**: when the league-descriptor fetch fails (no data, or the
`'leagues'` key missing): `RitoProvider.UpdateMatches` is contained — it
returns `[]` without raising and leaves the provider untouched; but
`RitoProvider.LoadData` returns with the provider's teams, matches and
rosters already cleared (only the brackets survive), and
`GrumbleProvider.LoadData` and `UpdateMatches` raise an uncaught `TypeError`
that propagates past the Engine (neither `LoadEsports` nor
`UpdateEsportsMatches` catches), `LoadData` having already cleared the whole
provider state. -/
theorem C2_descriptor_failure_behaviour
    (rest : RitoState → RitoState) (doc : RitoLeagueDoc)
    (hdoc : doc.hasLeagues = false) (now : Int) (s : RitoState)
    (division realm : String) (playoffResp : Option GrumbleResp)
    (teamResp : String → Option (List String)) (rng : Nat → Bool)
    (gs gs2 : GrumbleState) :
    ritoLoadData rest none s = { s with teams := [], mmatches := [], rosters := [] } ∧
    ritoLoadData rest (some doc) s = { s with teams := [], mmatches := [], rosters := [] } ∧
    ritoUpdateMatches none now s = (s, Except.ok []) ∧
    ritoUpdateMatches (some doc) now s = (s, Except.ok []) ∧
    (grumbleLoadData division realm none playoffResp teamResp rng gs).2 =
      some PyErr.typeError ∧
    (grumbleLoadData division realm none playoffResp teamResp rng gs).1.teams = [] ∧
    (grumbleLoadData division realm none playoffResp teamResp rng gs).1.mmatches = [] ∧
    grumbleUpdateMatches division none playoffResp gs2 =
      (gs2, Except.error PyErr.typeError) := by
  refine ⟨rfl, ?_, rfl, ?_, rfl, rfl, rfl, rfl⟩
  · simp [ritoLoadData, hdoc]
  · simp [ritoUpdateMatches, hdoc]

/-- Witness for the C2 amended theorem at concrete inputs. -/
theorem C2_amended_witness :
    ritoLoadData id (some c2Doc) c2RitoState =
      { c2RitoState with teams := [], mmatches := [], rosters := [] } ∧
    ritoUpdateMatches (some c2Doc) 0 c2RitoState = (c2RitoState, Except.ok []) :=
  ⟨(C2_descriptor_failure_behaviour id c2Doc rfl 0 c2RitoState "D1" "NA1" none
      (fun _ => none) (fun _ => true) ⟨[], [], []⟩ ⟨[], [], []⟩).2.1,
   (C2_descriptor_failure_behaviour id c2Doc rfl 0 c2RitoState "D1" "NA1" none
      (fun _ => none) (fun _ => true) ⟨[], [], []⟩ ⟨[], [], []⟩).2.2.2.1⟩

theorem gMakePlayers_erase (rng1 rng2 : Nat → Bool) (tid : String) :
    ∀ (names : List String) (k1 k2 : Nat),
      (gMakePlayers rng1 tid names k1).1.map erasePlayerPosition =
        (gMakePlayers rng2 tid names k2).1.map erasePlayerPosition
  | [], _, _ => rfl
  | nm :: rest, k1, k2 => by
    simp only [gMakePlayers, List.map_cons]
    rw [gMakePlayers_erase rng1 rng2 tid rest (k1 + 1) (k2 + 1)]
    rfl

theorem gAddPlayers_erase (teamResp : String → Option (List String))
    (rng1 rng2 : Nat → Bool) :
    ∀ (teams : List (String × Team)) (k1 k2 : Nat),
      (gAddPlayers teamResp rng1 teams k1).1.map (fun q => (q.1, eraseTeamPositions q.2)) =
        (gAddPlayers teamResp rng2 teams k2).1.map (fun q => (q.1, eraseTeamPositions q.2))
  | [], _, _ => rfl
  | (tid, tm) :: rest, k1, k2 => by
    cases h : teamResp tid with
    | none =>
      simp only [gAddPlayers, h, List.map_cons]
      rw [gAddPlayers_erase teamResp rng1 rng2 rest k1 k2]
    | some names =>
      simp only [gAddPlayers, h, List.map_cons]
      have hhead : eraseTeamPositions
          { tm with players := tm.players ++ (gMakePlayers rng1 tid names k1).1 } =
          eraseTeamPositions
          { tm with players := tm.players ++ (gMakePlayers rng2 tid names k2).1 } := by
        simp only [eraseTeamPositions, List.map_append]
        rw [gMakePlayers_erase rng1 rng2 tid names k1 k2]
      rw [hhead, gAddPlayers_erase teamResp rng1 rng2 rest
        (gMakePlayers rng1 tid names k1).2 (gMakePlayers rng2 tid names k2).2]

/-- **C4 amended**: two Grumble reloads with unchanged upstream responses
produce identical matches (same match ids, timestamps, winners and games),
identical brackets (hence identical schedule order and standings) and the
same error status, independent of the prior state; the teams agree except
for the players' `position` fields, which `random.choice(['Fill', 'Feed'])`
draws anew on every reload. -/
theorem C4_reload_deterministic_up_to_positions (division realm : String)
    (seasonResp playoffResp : Option GrumbleResp)
    (teamResp : String → Option (List String)) (rng1 rng2 : Nat → Bool)
    (s1 s2 : GrumbleState) :
    (grumbleLoadData division realm seasonResp playoffResp teamResp rng1 s1).1.mmatches =
      (grumbleLoadData division realm seasonResp playoffResp teamResp rng2 s2).1.mmatches ∧
    (grumbleLoadData division realm seasonResp playoffResp teamResp rng1 s1).1.brackets =
      (grumbleLoadData division realm seasonResp playoffResp teamResp rng2 s2).1.brackets ∧
    (grumbleLoadData division realm seasonResp playoffResp teamResp rng1 s1).2 =
      (grumbleLoadData division realm seasonResp playoffResp teamResp rng2 s2).2 ∧
    (grumbleLoadData division realm seasonResp playoffResp teamResp rng1 s1).1.teams.map
        (fun q => (q.1, eraseTeamPositions q.2)) =
      (grumbleLoadData division realm seasonResp playoffResp teamResp rng2 s2).1.teams.map
        (fun q => (q.1, eraseTeamPositions q.2)) := by
  cases seasonResp with
  | none => exact ⟨rfl, rfl, rfl, rfl⟩
  | some resp =>
    cases playoffResp with
    | none => exact ⟨rfl, rfl, rfl, rfl⟩
    | some presp =>
      exact ⟨rfl, rfl, rfl, gAddPlayers_erase teamResp rng1 rng2 _ 0 0⟩

/-- **C4 counterexample**: two reloads with identical upstream responses but
different random draws yield different team protos (player positions `Fill`
vs `Feed`), so the derived snapshots are not byte-identical. -/
theorem C4_counterexample :
    (grumbleLoadData "D1" "NA1" (some c4SeasonResp) (some { schedule := [] })
        c4TeamResp (fun _ => true) gEmptyState).1.teams ≠
      (grumbleLoadData "D1" "NA1" (some c4SeasonResp) (some { schedule := [] })
        c4TeamResp (fun _ => false) gEmptyState).1.teams := by
  decide

theorem gUpdMatch_winners (league_id bracket_id : String) (count : Nat) (mt : GMatch)
    (heap : Heap) (acc : List String) (h : updatedHaveWinners heap acc) :
    updatedHaveWinners (gUpdMatch league_id bracket_id count mt heap acc).1
      (gUpdMatch league_id bracket_id count mt heap acc).2 := by
  simp only [gUpdMatch]
  cases hg : heapGet heap (league_id ++ "-" ++ bracket_id ++ "-" ++ toString count) with
  | none => exact h
  | some old =>
    dsimp only
    by_cases hw0 : old.winner ≠ ""
    · rw [if_pos hw0]
      exact h
    · rw [if_neg hw0]
      by_cases hw : gUpdTeam mt.team2 (gUpdTeam mt.team1 old.winner) ≠ ""
      · rw [if_pos hw]
        intro j hj
        rcases List.mem_append.mp hj with hj | hj
        · obtain ⟨m, hm, hmw⟩ := h j hj
          rw [heapGet_heapSet]
          by_cases hcase : j = (league_id ++ "-" ++ bracket_id ++ "-" ++ toString count) ∧
              (heapGet heap (league_id ++ "-" ++ bracket_id ++ "-" ++ toString count)).isSome
          · rw [if_pos hcase]
            exact ⟨_, rfl, hw⟩
          · rw [if_neg hcase]
            exact ⟨m, hm, hmw⟩
        · rcases List.mem_singleton.mp hj with rfl
          rw [heapGet_heapSet]
          rw [if_pos ⟨rfl, by rw [hg]; rfl⟩]
          exact ⟨_, rfl, hw⟩
      · rw [if_neg hw]
        exact h

theorem gUpdMatchList_winners (league_id bracket_id : String) :
    ∀ (ml : List GMatch) (count : Nat) (heap : Heap) (acc : List String),
      updatedHaveWinners heap acc →
      updatedHaveWinners (gUpdMatchList league_id bracket_id ml count heap acc).2.1
        (gUpdMatchList league_id bracket_id ml count heap acc).2.2
  | [], _, _, _, h => h
  | mt :: rest, count, heap, acc, h =>
    gUpdMatchList_winners league_id bracket_id rest (count + 1) _ _
      (gUpdMatch_winners league_id bracket_id (count + 1) mt heap acc h)

theorem gUpdWeekList_winners (league_id bracket_id : String) :
    ∀ (weeks : List GWeek) (count : Nat) (heap : Heap) (acc : List String),
      updatedHaveWinners heap acc →
      updatedHaveWinners (gUpdWeekList league_id bracket_id weeks count heap acc).2.1
        (gUpdWeekList league_id bracket_id weeks count heap acc).2.2
  | [], _, _, _, h => h
  | w :: rest, count, heap, acc, h =>
    gUpdWeekList_winners league_id bracket_id rest _ _ _
      (gUpdMatchList_winners league_id bracket_id w.gmatches count heap acc h)

theorem grumbleUpdateSchedule_winners (schedule : List GWeek)
    (league_id bracket_id : String) (heap : Heap) :
    updatedHaveWinners (grumbleUpdateSchedule schedule league_id bracket_id heap).1
      (grumbleUpdateSchedule schedule league_id bracket_id heap).2 :=
  gUpdWeekList_winners league_id bracket_id schedule 0 heap []
    (fun _ hj => absurd hj (List.not_mem_nil _))

theorem resultsLoop_eq_take (p : String → Bool) (f : String → ResultEntry) :
    ∀ (l : List String) (n : Nat),
      resultsLoop p f n l = ((l.filter p).map f).take (max 1 n)
  | [], n => by simp [resultsLoop]
  | mid :: rest, n => by
    by_cases h : p mid
    · rw [show resultsLoop p f n (mid :: rest) =
          (if n ≤ 1 then [f mid] else f mid :: resultsLoop p f (n - 1) rest) from by
            simp [resultsLoop, h],
        List.filter_cons_of_pos h, List.map_cons]
      by_cases hn : n ≤ 1
      · have hmax : max 1 n = 1 := by omega
        rw [if_pos hn, hmax]
        rfl
      · have hmax : max 1 n = n := by omega
        have hmax2 : max 1 (n - 1) = n - 1 := by omega
        rw [if_neg hn, resultsLoop_eq_take p f rest (n - 1), hmax, hmax2]
        cases n with
        | zero => omega
        | succ m =>
          rw [List.take_succ_cons, Nat.add_sub_cancel]
    · rw [show resultsLoop p f n (mid :: rest) = resultsLoop p f n rest from by
          simp [resultsLoop, h],
        List.filter_cons_of_neg h, resultsLoop_eq_take p f rest n]

theorem getResults_eq (leagueOf : String → String) (heap : Heap)
    (schedule : List String) (qualifier : String) (n : Nat) :
    getResults leagueOf heap schedule qualifier n =
      ((schedule.reverse.filter (resultIsInteresting leagueOf heap qualifier)).map
        (resultEntryOf heap)).take n := by
  unfold getResults
  rw [resultsLoop_eq_take, List.take_take]
  congr 1
  omega

/-- **C8 amended**: a match whose winner `GrumbleProvider.UpdateMatches` just
set is immediately visible through the shared heap: its cell now carries a
set winner, and — provided the match is among the first `num_games` entries
of the reversed schedule that pass the results filter — the very next
`GetResults` call reports it with that winner, with no reload in between.
(Without that proviso the match can be crowded out by the `num_games` cap;
see the counterexample.) -/
theorem C8_updated_winner_in_results (weeks : List GWeek)
    (league_id bracket_id : String) (heap : Heap) (leagueOf : String → String)
    (schedule : List String) (qualifier : String) (n : Nat) (mid : String)
    (hupd : mid ∈ (grumbleUpdateSchedule weeks league_id bracket_id heap).2) :
    ∃ m, heapGet (grumbleUpdateSchedule weeks league_id bracket_id heap).1 mid = some m ∧
      m.winner ≠ "" ∧
      (mid ∈ (schedule.reverse.filter (resultIsInteresting leagueOf
          (grumbleUpdateSchedule weeks league_id bracket_id heap).1 qualifier)).take n →
        ({ blue := m.blue, red := m.red, winner := m.winner } : ResultEntry) ∈
          getResults leagueOf (grumbleUpdateSchedule weeks league_id bracket_id heap).1
            schedule qualifier n) := by
  obtain ⟨m, hm, hw⟩ :=
    grumbleUpdateSchedule_winners weeks league_id bracket_id heap mid hupd
  refine ⟨m, hm, hw, ?_⟩
  intro hmem
  rw [getResults_eq, ← List.map_take]
  refine List.mem_map.mpr ⟨mid, hmem, ?_⟩
  unfold resultEntryOf
  rw [hm]

/-- **C8 counterexample**: `UpdateMatches` sets the winner of the oldest
match and the next `GetResults` call's qualifier (`'All'`) matches it, yet
the default `num_games = 5` cap — filled by the five more recent completed
matches — keeps the updated match out of the reported results, with no
intervening reload involved. -/
theorem C8_counterexample :
    c8MatchId 1 ∈
      (grumbleUpdateSchedule c8Weeks "grumble-D1" "grumble-D1-season" c8Heap).2 ∧
    heapGet (grumbleUpdateSchedule c8Weeks "grumble-D1" "grumble-D1-season" c8Heap).1
        (c8MatchId 1) = some (c8MatchK 1 "A") ∧
    resultIsInteresting (fun _ => "grumble-D1")
      (grumbleUpdateSchedule c8Weeks "grumble-D1" "grumble-D1-season" c8Heap).1 "All"
      (c8MatchId 1) = true ∧
    ({ blue := "B1", red := "R1", winner := "A" } : ResultEntry) ∉
      getResults (fun _ => "grumble-D1")
        (grumbleUpdateSchedule c8Weeks "grumble-D1" "grumble-D1-season" c8Heap).1
        c8Schedule "All" 5 := by
  refine ⟨by decide, by decide, by decide, by decide⟩

/-- Witness for the C8 amended theorem: with the updated match among the
first `num_games` qualifying results, `GetResults` reports it with the fresh
winner. -/
theorem C8_amended_witness :
    ({ blue := "B1", red := "R1", winner := "A" } : ResultEntry) ∈
      getResults (fun _ => "grumble-D1")
        (grumbleUpdateSchedule c8Weeks "grumble-D1" "grumble-D1-season" c8wHeap).1
        [c8MatchId 1] "All" 5 := by
  obtain ⟨m, hm, hw, himp⟩ := C8_updated_winner_in_results c8Weeks "grumble-D1"
    "grumble-D1-season" c8wHeap (fun _ => "grumble-D1") [c8MatchId 1] "All" 5
    (c8MatchId 1) (by decide)
  have h2 : some (c8MatchK 1 "A") = some m := by
    rw [← hm]
    decide
  have hmv : m = c8MatchK 1 "A" := (Option.some.inj h2).symm
  subst hmv
  exact himp (by decide)

theorem frameEq_refl (m : MatchData) : frameEq m m := ⟨rfl, rfl, rfl, rfl⟩

theorem frameEq_trans {a b c : MatchData} (h1 : frameEq a b) (h2 : frameEq b c) :
    frameEq a c := by
  obtain ⟨x1, x2, x3, x4⟩ := h1
  obtain ⟨y1, y2, y3, y4⟩ := h2
  exact ⟨y1.trans x1, y2.trans x2, y3.trans x3, y4.trans x4⟩

theorem heapFrame_refl (h : Heap) : heapFrame h h :=
  ⟨rfl, fun _ m' hm => ⟨m', hm, frameEq_refl m'⟩⟩

theorem heapFrame_trans {h1 h2 h3 : Heap} (a : heapFrame h1 h2) (b : heapFrame h2 h3) :
    heapFrame h1 h3 := by
  obtain ⟨ai, am⟩ := a
  obtain ⟨bi, bm⟩ := b
  refine ⟨bi.trans ai, ?_⟩
  intro mid m' hm
  obtain ⟨m2, hm2, f2⟩ := bm mid m' hm
  obtain ⟨m1, hm1, f1⟩ := am mid m2 hm2
  exact ⟨m1, hm1, frameEq_trans f1 f2⟩

theorem heapFrame_set (pre h : Heap) (hf : heapFrame pre h) (mid : String)
    (old new : MatchData) (hold : heapGet h mid = some old)
    (hnew : frameEq old new) : heapFrame pre (heapSet h mid new) := by
  obtain ⟨hids, hmem⟩ := hf
  refine ⟨by rw [heapIds_heapSet, hids], ?_⟩
  intro j m' hj
  rw [heapGet_heapSet] at hj
  by_cases hcase : j = mid ∧ (heapGet h mid).isSome
  · rw [if_pos hcase] at hj
    injection hj with hj
    subst hj
    obtain ⟨m, hm, hfe⟩ := hmem mid old hold
    refine ⟨m, ?_, frameEq_trans hfe hnew⟩
    rw [hcase.1]
    exact hm
  · rw [if_neg hcase] at hj
    exact hmem j m' hj

theorem heapGet_heapSet_self (h : Heap) (mid : String) (m : MatchData)
    (hs : (heapGet h mid).isSome) : heapGet (heapSet h mid m) mid = some m := by
  rw [heapGet_heapSet, if_pos ⟨rfl, hs⟩]

theorem mem_heapIds_of_get {h : Heap} {mid : String} {m : MatchData}
    (hg : heapGet h mid = some m) : mid ∈ heapIds h :=
  (heapGet_isSome_iff_mem h mid).mp (by rw [hg]; rfl)

theorem gUpdMatch_frame (league_id bracket_id : String) (count : Nat) (mt : GMatch)
    (pre heap : Heap) (acc : List String) (hf : heapFrame pre heap)
    (hacc : ∀ mid ∈ acc, mid ∈ heapIds pre) :
    heapFrame pre (gUpdMatch league_id bracket_id count mt heap acc).1 ∧
    (∀ mid ∈ (gUpdMatch league_id bracket_id count mt heap acc).2,
      mid ∈ heapIds pre) := by
  simp only [gUpdMatch]
  cases hg : heapGet heap (league_id ++ "-" ++ bracket_id ++ "-" ++ toString count) with
  | none => exact ⟨hf, hacc⟩
  | some old =>
    dsimp only
    by_cases hw0 : old.winner ≠ ""
    · rw [if_pos hw0]
      exact ⟨hf, hacc⟩
    · rw [if_neg hw0]
      by_cases hw : gUpdTeam mt.team2 (gUpdTeam mt.team1 old.winner) ≠ ""
      · rw [if_pos hw]
        refine ⟨heapFrame_set pre heap hf _ old _ hg ⟨rfl, rfl, rfl, rfl⟩, ?_⟩
        intro j hj
        rcases List.mem_append.mp hj with hj | hj
        · exact hacc j hj
        · rcases List.mem_singleton.mp hj with rfl
          rw [← hf.1]
          exact mem_heapIds_of_get hg
      · rw [if_neg hw]
        exact ⟨hf, hacc⟩

theorem gUpdMatchList_frame (league_id bracket_id : String) (pre : Heap) :
    ∀ (ml : List GMatch) (count : Nat) (heap : Heap) (acc : List String),
      heapFrame pre heap → (∀ mid ∈ acc, mid ∈ heapIds pre) →
      heapFrame pre (gUpdMatchList league_id bracket_id ml count heap acc).2.1 ∧
      (∀ mid ∈ (gUpdMatchList league_id bracket_id ml count heap acc).2.2,
        mid ∈ heapIds pre)
  | [], _, _, _, hf, hacc => ⟨hf, hacc⟩
  | mt :: rest, count, heap, acc, hf, hacc => by
    have hstep := gUpdMatch_frame league_id bracket_id (count + 1) mt pre heap acc hf hacc
    exact gUpdMatchList_frame league_id bracket_id pre rest (count + 1) _ _ hstep.1 hstep.2

theorem gUpdWeekList_frame (league_id bracket_id : String) (pre : Heap) :
    ∀ (weeks : List GWeek) (count : Nat) (heap : Heap) (acc : List String),
      heapFrame pre heap → (∀ mid ∈ acc, mid ∈ heapIds pre) →
      heapFrame pre (gUpdWeekList league_id bracket_id weeks count heap acc).2.1 ∧
      (∀ mid ∈ (gUpdWeekList league_id bracket_id weeks count heap acc).2.2,
        mid ∈ heapIds pre)
  | [], _, _, _, hf, hacc => ⟨hf, hacc⟩
  | w :: rest, count, heap, acc, hf, hacc => by
    have hstep := gUpdMatchList_frame league_id bracket_id pre w.gmatches count heap acc hf hacc
    exact gUpdWeekList_frame league_id bracket_id pre rest _ _ _ hstep.1 hstep.2

theorem grumbleUpdateSchedule_frame (schedule : List GWeek)
    (league_id bracket_id : String) (heap : Heap) :
    heapFrame heap (grumbleUpdateSchedule schedule league_id bracket_id heap).1 ∧
    (∀ mid ∈ (grumbleUpdateSchedule schedule league_id bracket_id heap).2,
      mid ∈ heapIds heap) :=
  gUpdWeekList_frame league_id bracket_id heap schedule 0 heap []
    (heapFrame_refl heap) (fun _ hj => absurd hj (List.not_mem_nil _))

theorem grumbleUpdateMatches_frame (division : String)
    (seasonResp playoffResp : Option GrumbleResp) (s : GrumbleState) :
    (grumbleUpdateMatches division seasonResp playoffResp s).1.teams = s.teams ∧
    (grumbleUpdateMatches division seasonResp playoffResp s).1.brackets = s.brackets ∧
    heapFrame s.mmatches (grumbleUpdateMatches division seasonResp playoffResp s).1.mmatches ∧
    (∀ l, (grumbleUpdateMatches division seasonResp playoffResp s).2 = Except.ok l →
      ∀ mid ∈ l, mid ∈ heapIds s.mmatches) := by
  simp only [grumbleUpdateMatches]
  cases seasonResp with
  | none =>
    refine ⟨rfl, rfl, heapFrame_refl _, ?_⟩
    intro l hl
    simp at hl
  | some resp =>
    cases hsb : alistGet s.brackets "season" with
    | none =>
      refine ⟨rfl, rfl, heapFrame_refl _, ?_⟩
      intro l hl
      simp at hl
    | some sb =>
      have h1 := grumbleUpdateSchedule_frame resp.schedule ("grumble-" ++ division)
        sb.bracket_id s.mmatches
      cases playoffResp with
      | none =>
        refine ⟨rfl, rfl, h1.1, ?_⟩
        intro l hl
        simp at hl
      | some presp =>
        cases hpb : alistGet s.brackets "playoffs" with
        | none =>
          refine ⟨rfl, rfl, h1.1, ?_⟩
          intro l hl
          simp at hl
        | some pb =>
          have h2 := grumbleUpdateSchedule_frame presp.schedule ("grumble-" ++ division)
            pb.bracket_id (grumbleUpdateSchedule resp.schedule ("grumble-" ++ division)
              sb.bracket_id s.mmatches).1
          refine ⟨rfl, rfl, heapFrame_trans h1.1 h2.1, ?_⟩
          intro l hl mid hmid
          injection hl with hl
          subst hl
          rcases List.mem_append.mp hmid with hmid | hmid
          · exact h1.2 mid hmid
          · have := h2.2 mid hmid
            rw [h1.1.1] at this
            exact this

theorem ritoTbd_frame (rosters : List (String × Team)) (raw : RawMatch)
    (old old1 : MatchData)
    (h : (if old.blue = "TBD" ∨ old.red = "TBD" then
        match extractMatchTeams rosters raw with
        | Except.error e => Except.error e
        | Except.ok (some (b, r)) => Except.ok { old with blue := b, red := r }
        | Except.ok none => Except.ok old
      else Except.ok old) = Except.ok old1) :
    frameEq old old1 := by
  by_cases hc : old.blue = "TBD" ∨ old.red = "TBD"
  · rw [if_pos hc] at h
    cases he : extractMatchTeams rosters raw with
    | error e =>
      rw [he] at h
      simp at h
    | ok v =>
      rw [he] at h
      cases v with
      | none =>
        simp at h
        subst h
        exact frameEq_refl _
      | some br =>
        obtain ⟨b, r⟩ := br
        simp at h
        subst h
        exact ⟨rfl, rfl, rfl, rfl⟩
  · rw [if_neg hc] at h
    simp at h
    subst h
    exact frameEq_refl _

theorem ritoUpdMatch_frame (rosters : List (String × Team)) (raw : RawMatch)
    (pre heap : Heap) (hf : heapFrame pre heap) :
    heapFrame pre (ritoUpdMatch rosters raw heap).1 ∧
    (∀ mid, (ritoUpdMatch rosters raw heap).2.1 = some mid → mid ∈ heapIds pre) := by
  simp only [ritoUpdMatch]
  cases hg : heapGet heap raw.id with
  | none =>
    refine ⟨hf, ?_⟩
    intro mid h
    simp at h
  | some old =>
    dsimp only
    cases hp : (if old.blue = "TBD" ∨ old.red = "TBD" then
        match extractMatchTeams rosters raw with
        | Except.error e => Except.error e
        | Except.ok (some (b, r)) => Except.ok { old with blue := b, red := r }
        | Except.ok none => Except.ok old
      else Except.ok old) with
    | error e =>
      refine ⟨hf, ?_⟩
      intro mid h
      simp at h
    | ok old1 =>
      dsimp only
      have hfe : frameEq old old1 := ritoTbd_frame rosters raw old old1 hp
      have hf1 : heapFrame pre (heapSet heap raw.id old1) :=
        heapFrame_set pre heap hf raw.id old old1 hg hfe
      have hg1 : heapGet (heapSet heap raw.id old1) raw.id = some old1 :=
        heapGet_heapSet_self heap raw.id old1 (by rw [hg]; rfl)
      have hret : raw.id ∈ heapIds pre := by
        rw [← hf.1]
        exact mem_heapIds_of_get hg
      by_cases hw : old1.winner = ""
      · rw [if_pos hw]
        cases raw.standings with
        | none =>
          dsimp only
          refine ⟨hf1, ?_⟩
          intro mid h
          simp at h
        | some st =>
          dsimp only
          cases st.result with
          | nil =>
            dsimp only
            refine ⟨hf1, ?_⟩
            intro mid h
            simp at h
          | cons top rest =>
            dsimp only
            by_cases htop : 1 < top.length
            · rw [if_pos htop]
              refine ⟨heapFrame_set pre _ hf1 raw.id old1 _ hg1 ⟨rfl, rfl, rfl, rfl⟩, ?_⟩
              intro mid h
              injection h with h
              subst h
              exact hret
            · rw [if_neg htop]
              cases top with
              | nil =>
                dsimp only
                refine ⟨hf1, ?_⟩
                intro mid h
                injection h with h
                subst h
                exact hret
              | cons r0 tr =>
                cases tr with
                | nil =>
                  dsimp only
                  cases hro : alistGet rosters r0.roster with
                  | some t =>
                    dsimp only
                    refine ⟨heapFrame_set pre _ hf1 raw.id old1 _ hg1
                      ⟨rfl, rfl, rfl, rfl⟩, ?_⟩
                    intro mid h
                    injection h with h
                    subst h
                    exact hret
                  | none =>
                    dsimp only
                    refine ⟨hf1, ?_⟩
                    intro mid h
                    simp at h
                | cons r1 tr2 =>
                  dsimp only
                  refine ⟨hf1, ?_⟩
                  intro mid h
                  injection h with h
                  subst h
                  exact hret
      · rw [if_neg hw]
        refine ⟨hf1, ?_⟩
        intro mid h
        simp at h

theorem ritoUpdMatchList_frame (rosters : List (String × Team)) (pre : Heap) :
    ∀ (ml : List RawMatch) (heap : Heap) (acc : List String),
      heapFrame pre heap → (∀ mid ∈ acc, mid ∈ heapIds pre) →
      heapFrame pre (ritoUpdMatchList rosters ml heap acc).1 ∧
      (∀ mid ∈ (ritoUpdMatchList rosters ml heap acc).2.1, mid ∈ heapIds pre)
  | [], _, _, hf, hacc => ⟨hf, hacc⟩
  | raw :: rest, heap, acc, hf, hacc => by
    have hstep := ritoUpdMatch_frame rosters raw pre heap hf
    simp only [ritoUpdMatchList]
    cases herr : (ritoUpdMatch rosters raw heap).2.2 with
    | some e => exact ⟨hstep.1, hacc⟩
    | none =>
      cases hret : (ritoUpdMatch rosters raw heap).2.1 with
      | some mid =>
        refine ritoUpdMatchList_frame rosters pre rest _ _ hstep.1 ?_
        intro j hj
        rcases List.mem_append.mp hj with hj | hj
        · exact hacc j hj
        · rcases List.mem_singleton.mp hj with rfl
          exact hstep.2 j hret
      | none =>
        exact ritoUpdMatchList_frame rosters pre rest _ _ hstep.1 hacc

theorem ritoUpdBracketList_frame (rosters : List (String × Team)) (pre : Heap) :
    ∀ (bl : List RawBracket) (heap : Heap) (acc : List String),
      heapFrame pre heap → (∀ mid ∈ acc, mid ∈ heapIds pre) →
      heapFrame pre (ritoUpdBracketList rosters bl heap acc).1 ∧
      (∀ mid ∈ (ritoUpdBracketList rosters bl heap acc).2.1, mid ∈ heapIds pre)
  | [], _, _, hf, hacc => ⟨hf, hacc⟩
  | b :: rest, heap, acc, hf, hacc => by
    have hstep := ritoUpdMatchList_frame rosters pre b.bmatches heap acc hf hacc
    simp only [ritoUpdBracketList]
    cases herr : (ritoUpdMatchList rosters b.bmatches heap acc).2.2 with
    | some e => exact ⟨hstep.1, hstep.2⟩
    | none => exact ritoUpdBracketList_frame rosters pre rest _ _ hstep.1 hstep.2

theorem ritoUpdTournamentList_frame (rosters : List (String × Team)) (pre : Heap) :
    ∀ (tl : List (Option RawTournament)) (heap : Heap) (acc : List String),
      heapFrame pre heap → (∀ mid ∈ acc, mid ∈ heapIds pre) →
      heapFrame pre (ritoUpdTournamentList rosters tl heap acc).1 ∧
      (∀ mid ∈ (ritoUpdTournamentList rosters tl heap acc).2.1, mid ∈ heapIds pre)
  | [], _, _, hf, hacc => ⟨hf, hacc⟩
  | none :: _, _, _, hf, hacc => ⟨hf, hacc⟩
  | some t :: rest, heap, acc, hf, hacc => by
    have hstep := ritoUpdBracketList_frame rosters pre t.brackets heap acc hf hacc
    simp only [ritoUpdTournamentList]
    cases herr : (ritoUpdBracketList rosters t.brackets heap acc).2.2 with
    | some e => exact ⟨hstep.1, hstep.2⟩
    | none => exact ritoUpdTournamentList_frame rosters pre rest _ _ hstep.1 hstep.2

theorem ritoUpdateMatches_frame (fetch : Option RitoLeagueDoc) (now : Int)
    (s : RitoState) :
    (ritoUpdateMatches fetch now s).1.teams = s.teams ∧
    (ritoUpdateMatches fetch now s).1.brackets = s.brackets ∧
    (ritoUpdateMatches fetch now s).1.rosters = s.rosters ∧
    heapFrame s.mmatches (ritoUpdateMatches fetch now s).1.mmatches ∧
    (∀ l, (ritoUpdateMatches fetch now s).2 = Except.ok l →
      ∀ mid ∈ l, mid ∈ heapIds s.mmatches) := by
  simp only [ritoUpdateMatches]
  cases fetch with
  | none =>
    refine ⟨rfl, rfl, rfl, heapFrame_refl _, ?_⟩
    intro l hl mid hmid
    injection hl with hl
    subst hl
    simp at hmid
  | some doc =>
    dsimp only
    cases hdoc : doc.hasLeagues with
    | false =>
      rw [if_pos (by decide : (!false) = true)]
      refine ⟨rfl, rfl, rfl, heapFrame_refl _, ?_⟩
      intro l hl mid hmid
      injection hl with hl
      subst hl
      simp at hmid
    | true =>
      rw [if_neg (by decide : ¬ ((!true) = true))]
      have hstep := ritoUpdTournamentList_frame s.rosters s.mmatches
        (findActiveTournaments now doc.highlanderTournaments) s.mmatches []
        (heapFrame_refl _) (fun _ hj => absurd hj (List.not_mem_nil _))
      refine ⟨rfl, rfl, rfl, hstep.1, ?_⟩
      intro l hl mid hmid
      cases herr : (ritoUpdTournamentList s.rosters
          (findActiveTournaments now doc.highlanderTournaments) s.mmatches []).2.2 with
      | some e =>
        rw [herr] at hl
        simp at hl
      | none =>
        rw [herr] at hl
        injection hl with hl
        subst hl
        exact hstep.2 mid hmid

theorem provFrame_refl (p : Provider) : provFrame p p := by
  cases p with
  | rito f n s => exact ⟨rfl, rfl, rfl, rfl, rfl, heapFrame_refl _⟩
  | grumble d se pl s => exact ⟨rfl, rfl, rfl, rfl, rfl, heapFrame_refl _⟩

theorem forall₂_provFrame_refl : ∀ (l : List Provider), List.Forall₂ provFrame l l
  | [] => List.Forall₂.nil
  | p :: ps => List.Forall₂.cons (provFrame_refl p) (forall₂_provFrame_refl ps)

theorem providerUpdateMatches_frame (p : Provider) :
    provFrame p (providerUpdateMatches p).1 ∧
    (∀ l, (providerUpdateMatches p).2 = Except.ok l →
      ∀ mid ∈ l, mid ∈ heapIds (Provider.matchHeap p)) := by
  cases p with
  | rito fetch now s =>
    have h := ritoUpdateMatches_frame fetch now s
    exact ⟨⟨rfl, rfl, h.1, h.2.1, h.2.2.1, h.2.2.2.1⟩, h.2.2.2.2⟩
  | grumble d se pl s =>
    have h := grumbleUpdateMatches_frame d se pl s
    exact ⟨⟨rfl, rfl, rfl, h.1, h.2.1, h.2.2.1⟩, h.2.2.2⟩

/-- **C10**: every call of `UpdateEsportsMatches` leaves every provider's
teams, brackets (with all their standings) and set of known match ids
unchanged; the only per-match fields it may mutate are the winner and the
blue/red team references of already-existing matches; and every match id in
the returned list already existed in some provider's match map before the
call. -/
theorem C10_update_esports_matches_frame (ps : List Provider) :
    List.Forall₂ provFrame ps (updateEsportsMatches ps).1 ∧
    (∀ l, (updateEsportsMatches ps).2 = Except.ok l →
      ∀ mid ∈ l, ∃ p ∈ ps, mid ∈ heapIds (Provider.matchHeap p)) := by
  induction ps with
  | nil =>
    refine ⟨List.Forall₂.nil, ?_⟩
    intro l hl mid hmid
    injection hl with hl
    subst hl
    simp at hmid
  | cons p rest ih =>
    have hp := providerUpdateMatches_frame p
    simp only [updateEsportsMatches]
    cases hr2 : (providerUpdateMatches p).2 with
    | error e =>
      refine ⟨List.Forall₂.cons hp.1 (forall₂_provFrame_refl rest), ?_⟩
      intro l hl
      simp at hl
    | ok l1 =>
      cases hrs : (updateEsportsMatches rest).2 with
      | error e =>
        refine ⟨List.Forall₂.cons hp.1 ih.1, ?_⟩
        intro l hl
        simp at hl
      | ok l2 =>
        refine ⟨List.Forall₂.cons hp.1 ih.1, ?_⟩
        intro l hl mid hmid
        injection hl with hl
        subst hl
        rcases List.mem_append.mp hmid with hmid | hmid
        · exact ⟨p, List.mem_cons_self _ _, hp.2 l1 hr2 mid hmid⟩
        · obtain ⟨q, hq, hmem⟩ := ih.2 l2 hrs mid hmid
          exact ⟨q, List.mem_cons_of_mem _ hq, hmem⟩

/-- Witness for C10: the single updated match of a concrete poll already
existed in the provider's match map before the call. -/
theorem C10_witness :
    ∃ p ∈ c10Providers, c8MatchId 1 ∈ heapIds (Provider.matchHeap p) :=
  (C10_update_esports_matches_frame c10Providers).2 [c8MatchId 1] rfl
    (c8MatchId 1) (by decide)

end Hypebot
